import Mathlib

/-!
# Package `conf`: operator registration and signature validation

A shallow embedding of `conf/config.go`.  A method with receiver `c *Config`
is a function from the configuration before the call to an `Outcome`: the
configuration the call leaves behind, and whether the call returned or
panicked.  Go maps are association lists; the order of the entries stands for
the order in which one `range` loop happens to visit the map, which Go leaves
unspecified, so a statement proved for every list holds for every visiting
order.  Maps and descriptors are the allocated ones the package's own
constructors produce.
-/

namespace Conf

/-! ## Package `reflect`, as far as `config.go` observes it -/

/-- The values of `reflect.Kind`, in declaration order. -/
inductive Kind where
  | Invalid | Bool | Int | Int8 | Int16 | Int32 | Int64
  | Uint | Uint8 | Uint16 | Uint32 | Uint64 | Uintptr
  | Float32 | Float64 | Complex64 | Complex128
  | Array | Chan | Func | Interface | Map | Pointer | Slice
  | String | Struct | UnsafePointer
  deriving DecidableEq, Repr

/-- The predeclared types without components. -/
inductive Basic where
  | bool | int | int8 | int16 | int32 | int64
  | uint | uint8 | uint16 | uint32 | uint64 | uintptr
  | float32 | float64 | complex64 | complex128
  | string | unsafePointer
  deriving DecidableEq, Repr

/-- The kind of a predeclared type. -/
def Basic.Kind : Basic → Kind
  | .bool => .Bool | .int => .Int | .int8 => .Int8 | .int16 => .Int16
  | .int32 => .Int32 | .int64 => .Int64
  | .uint => .Uint | .uint8 => .Uint8 | .uint16 => .Uint16
  | .uint32 => .Uint32 | .uint64 => .Uint64 | .uintptr => .Uintptr
  | .float32 => .Float32 | .float64 => .Float64
  | .complex64 => .Complex64 | .complex128 => .Complex128
  | .string => .String | .unsafePointer => .UnsafePointer

/-- A Go type as a non-nil `reflect.Type`.  Two types are identical exactly
when the terms are equal; a defined type (`type N U`) is `named N U` and
differs from its underlying type `U`.  A function type is kept up to what
`NumIn` and `NumOut` report, a struct type up to a descriptor. -/
inductive RType where
  | basic (b : Basic)
  | iface (methods : List String)
  | func (numIn numOut : Nat)
  | mapOf (key elem : RType)
  | pointer (elem : RType)
  | slice (elem : RType)
  | array (len : Nat) (elem : RType)
  | chan (elem : RType)
  | struct (descr : String)
  | named (name : String) (underlying : RType)
  deriving DecidableEq, Repr

/-- The type `interface{}`. -/
def RType.emptyInterface : RType := .iface []

/-- The type `map[string]interface{}`. -/
def RType.mapStringInterface : RType := .mapOf (.basic .string) .emptyInterface

/-- What a call panics with. -/
inductive Err where
  /-- `panic("no environment is specified for ConstExpr()")` -/
  | noEnvironment
  /-- `fmt.Errorf("const expression %q must be a function", name)` -/
  | constExprNotFunc (name : String)
  /-- `fmt.Errorf("function %s for %s operator does not exist in the environment", fn, operator)` -/
  | doesNotExist (fn operator : String)
  /-- `fmt.Errorf("function %s for %s operator does not have a correct signature", fn, operator)` -/
  | badSignature (fn operator : String)
  /-- `fmt.Errorf("function %s for %s operator misses types", name, operator)` -/
  | missesTypes (name operator : String)
  /-- Package reflect: `"reflect: " + method + " of non-func type " + t.String()`,
  or for `Elem`, `"reflect: Elem of invalid type " + t.String()`. -/
  | reflectPanic (method : String) (t : RType)
  /-- The Go runtime: a method call through a nil `reflect.Type`. -/
  | nilDereference
  /-- A panic raised inside a collaborator outside this file. -/
  | foreign (msg : String)
  deriving DecidableEq, Repr

/-- The errors `config.go` raises itself (the configuration errors). -/
def Err.isConfig : Err → Bool
  | .noEnvironment | .constExprNotFunc _ | .doesNotExist _ _
  | .badSignature _ _ | .missesTypes _ _ => true
  | _ => false

/-- The message of a configuration error whose format has only `%s` verbs,
which `fmt` renders by inserting the argument as it is. -/
def Err.text : Err → Option String
  | .noEnvironment => some "no environment is specified for ConstExpr()"
  | .doesNotExist fn operator =>
    some ("function " ++ fn ++ " for " ++ operator ++ " operator does not exist in the environment")
  | .badSignature fn operator =>
    some ("function " ++ fn ++ " for " ++ operator ++ " operator does not have a correct signature")
  | .missesTypes name operator =>
    some ("function " ++ name ++ " for " ++ operator ++ " operator misses types")
  | _ => none

/-- The string `s` occurs in the string `msg`. -/
def Contains (msg s : String) : Prop := s.data <:+: msg.data

/-- The method `Type.Kind`. -/
def RType.Kind : RType → Kind
  | .basic b => b.Kind
  | .iface _ => .Interface
  | .func _ _ => .Func
  | .mapOf _ _ => .Map
  | .pointer _ => .Pointer
  | .slice _ => .Slice
  | .array _ _ => .Array
  | .chan _ => .Chan
  | .struct _ => .Struct
  | .named _ u => u.Kind

/-- The method `Type.NumIn`: it panics if the type's kind is not `Func`. -/
def RType.NumIn : RType → Except Err Nat
  | .func numIn _ => .ok numIn
  | .named n u =>
    match u.NumIn with
    | .ok k => .ok k
    | .error _ => .error (.reflectPanic "NumIn" (.named n u))
  | t => .error (.reflectPanic "NumIn" t)

/-- The method `Type.NumOut`: it panics if the type's kind is not `Func`. -/
def RType.NumOut : RType → Except Err Nat
  | .func _ numOut => .ok numOut
  | .named n u =>
    match u.NumOut with
    | .ok k => .ok k
    | .error _ => .error (.reflectPanic "NumOut" (.named n u))
  | t => .error (.reflectPanic "NumOut" t)

/-- The method `Type.Elem`: it panics if the type's kind is not `Array`,
`Chan`, `Map`, `Pointer` or `Slice`. -/
def RType.Elem : RType → Except Err RType
  | .mapOf _ elem => .ok elem
  | .pointer elem => .ok elem
  | .slice elem => .ok elem
  | .array _ elem => .ok elem
  | .chan elem => .ok elem
  | .named n u =>
    match u.Elem with
    | .ok e => .ok e
    | .error _ => .error (.reflectPanic "Elem" (.named n u))
  | t => .error (.reflectPanic "Elem" t)

/-- A non-nil value held in an `interface{}`: its dynamic type, and a token
for the data, which `config.go` never inspects. -/
structure Value where
  typ : RType
  data : Nat
  deriving DecidableEq, Repr

/-- A value of type `interface{}`; `none` is the nil interface.  A
`reflect.Value` is identified with the interface value it wraps, the zero
`reflect.Value` being `none`. -/
abbrev Interface := Option Value

/-- The function `reflect.TypeOf`: nil for the nil interface. -/
def TypeOf (i : Interface) : Option RType := i.map (·.typ)

/-- The call `reflect.ValueOf(i).Kind()`: `Invalid` for the nil interface. -/
def Interface.Kind : Interface → Kind
  | none => .Invalid
  | some v => v.typ.Kind

/-! ## Go maps with string keys -/

/-- A Go map with string keys, as the list of its entries. -/
abbrev GoMap (V : Type) := List (String × V)

/-- The two-valued read `v, ok := m[key]`: `none` when `ok` is false. -/
def GoMap.index {V : Type} : GoMap V → String → Option V
  | [], _ => none
  | (k, v) :: m, key => if k = key then some v else GoMap.index m key

/-- The write `m[key] = val`. -/
def GoMap.store {V : Type} : GoMap V → String → V → GoMap V
  | [], key, val => [(key, val)]
  | (k, v) :: m, key, val =>
    if k = key then (key, val) :: m else (k, v) :: GoMap.store m key val

/-! ## The declarations of package `conf` and `builtin` that `config.go` uses -/

/-- Modelled from the spec: the declaration of `Tag` is in another file of the
package.  A type descriptor carries the identifier's type, a `reflect.Type`
(the field `Type`, written `Typ` here; `none` is the nil type, which the
catalogue holds for an untyped nil value), and the flag telling that the
identifier is a bound method. -/
structure Tag where
  Typ : Option RType
  Method : Bool
  deriving DecidableEq, Repr

/-- The type `TypesTable`: identifier name to descriptor. -/
abbrev TypesTable := GoMap Tag

/-- The type `OperatorsTable`: operator symbol to the sequence of candidate names. -/
abbrev OperatorsTable := GoMap (List String)

/-- Modelled from the spec: the declaration of `builtin.Function` is outside
this file.  A function descriptor carries its name and the list of its
overloads (`Types []reflect.Type`); the callable itself is not observed here. -/
structure Function where
  Name : String
  Types : List RType
  deriving DecidableEq, Repr

/-- The type `FunctionTable`. -/
abbrev FunctionTable := GoMap Function

/-- The struct `Config`.  A visitor is kept as a token. -/
structure Config where
  Env : Interface
  Types : TypesTable
  MapEnv : Bool
  DefaultType : Option RType
  Operators : OperatorsTable
  Expect : Kind
  ExpectAny : Bool
  Optimize : Bool
  Strict : Bool
  ConstFns : GoMap Interface
  Visitors : List Nat
  Functions : FunctionTable
  Pipes : Bool
  deriving DecidableEq, Repr

deriving instance DecidableEq for Except

/-- What a method call leaves: `result` is `ok` when the call returned and
`error e` when it panicked with `e`; `conf` is the configuration afterwards. -/
structure Outcome where
  result : Except Err Unit
  conf : Config
  deriving DecidableEq

/-! ## The functions of `config.go` -/

/-- CreateNew creates new config with default values; `builtinFunctions` is
the slice `builtin.Functions`. -/
def CreateNew (builtinFunctions : List Function) : Config :=
  let c : Config :=
    { Env := none, Types := [], MapEnv := false, DefaultType := none,
      Operators := [], Expect := .Invalid, ExpectAny := false,
      Optimize := true, Strict := false, ConstFns := [], Visitors := [],
      Functions := [], Pipes := false }
  builtinFunctions.foldl (fun c f => { c with Functions := c.Functions.store f.Name f }) c

/-- The method `WithEnv`; `CreateTypesTable` is the function of that name,
declared in another file of the package, which may panic.  `assign` is the
five assignments in the order of the source: `c.Env` is written before
`CreateTypesTable` is called, so a panic of that call leaves `Env` written and
`Types`, `MapEnv`, `DefaultType` and `Strict` as they were. -/
def WithEnv (CreateTypesTable : Interface → Except Err TypesTable) (env : Interface)
    (c : Config) : Outcome :=
  let assign (mapEnv : Bool) (mapValueType : Option RType) : Outcome :=
    let c1 : Config := { c with Env := env }
    match CreateTypesTable env with
    | .error e => ⟨.error e, c1⟩
    | .ok types =>
      ⟨.ok (), { c1 with Types := types, MapEnv := mapEnv, DefaultType := mapValueType,
                         Strict := true }⟩
  if TypeOf env = some RType.mapStringInterface then
    assign true none
  else if env.Kind = Kind.Map then
    match TypeOf env with
    | none => ⟨.error .nilDereference, c⟩
    | some t =>
      match t.Elem with
      | .error e => ⟨.error e, c⟩
      | .ok elem => assign false (some elem)
  else
    assign false none

/-- New creates new config with environment. -/
def New (builtinFunctions : List Function)
    (CreateTypesTable : Interface → Except Err TypesTable)
    (env : Interface) : Outcome :=
  WithEnv CreateTypesTable env (CreateNew builtinFunctions)

/-- The method `Operator`.  Reading an absent key gives the nil slice. -/
def Operator (operator : String) (fns : List String) (c : Config) : Outcome :=
  ⟨.ok (), { c with Operators :=
      c.Operators.store operator (((c.Operators.index operator).getD []) ++ fns) }⟩

/-- The method `ConstExpr`; `Fetch` is `runtime.Fetch`, which may itself panic. -/
def ConstExpr (Fetch : Interface → String → Except Err Interface) (name : String)
    (c : Config) : Outcome :=
  if c.Env = none then
    ⟨.error .noEnvironment, c⟩
  else
    match Fetch c.Env name with
    | .error e => ⟨.error e, c⟩
    | .ok fn =>
      if fn.Kind ≠ Kind.Func then
        ⟨.error (.constExprNotFunc name), c⟩
      else
        ⟨.ok (), { c with ConstFns := c.ConstFns.store name fn }⟩

/-- The function `checkType`.  The two sides of `||` are evaluated left to right. -/
def checkType (fnType : Tag) (fn operator : String) : Except Err Unit :=
  let requiredNumIn := if fnType.Method then 3 else 2
  match fnType.Typ with
  | none => .error .nilDereference
  | some t =>
    match t.NumIn with
    | .error e => .error e
    | .ok numIn =>
      if numIn ≠ requiredNumIn then .error (.badSignature fn operator)
      else
        match t.NumOut with
        | .error e => .error e
        | .ok numOut =>
          if numOut ≠ 1 then .error (.badSignature fn operator) else .ok ()

/-- The loop of `checkFunc` over `fn.Types`. -/
def checkFunc.loop (name operator : String) : List RType → Except Err Unit
  | [] => .ok ()
  | t :: ts =>
    match t.NumIn with
    | .error e => .error e
    | .ok numIn =>
      if numIn ≠ 2 then .error (.badSignature name operator)
      else
        match t.NumOut with
        | .error e => .error e
        | .ok numOut =>
          if numOut ≠ 1 then .error (.badSignature name operator)
          else checkFunc.loop name operator ts

/-- The function `checkFunc`. -/
def checkFunc (fn : Function) (name operator : String) : Except Err Unit :=
  if fn.Types.length = 0 then .error (.missesTypes name operator)
  else checkFunc.loop name operator fn.Types

/-- The body of the inner loop of `Check`, for one candidate `fn` of `operator`. -/
def Check.body (c : Config) (operator fn : String) : Except Err Unit :=
  let fnType := c.Types.index fn
  let fnFunc := c.Functions.index fn
  let missing : Except Err Bool :=
    match fnFunc with
    | some _ => .ok false
    | none =>
      match fnType with
      | none => .ok true
      | some tag =>
        match tag.Typ with
        | none => .error .nilDereference
        | some t => .ok (t.Kind ≠ Kind.Func)
  match missing with
  | .error e => .error e
  | .ok true => .error (.doesNotExist fn operator)
  | .ok false =>
    let typed : Except Err Unit :=
      match fnType with
      | some tag => checkType tag fn operator
      | none => .ok ()
    match typed with
    | .error e => .error e
    | .ok () =>
      match fnFunc with
      | some f => checkFunc f fn operator
      | none => .ok ()

/-- The inner loop of `Check`: the candidates of one operator, in order. -/
def Check.inner (operator : String) : List String → Config → Outcome
  | [], c => ⟨.ok (), c⟩
  | fn :: fns, c =>
    match Check.body c operator fn with
    | .error e => ⟨.error e, c⟩
    | .ok () => Check.inner operator fns c

/-- The outer loop of `Check`: the entries of the operator table, in the order
the `range` visits them. -/
def Check.outer : List (String × List String) → Config → Outcome
  | [], c => ⟨.ok (), c⟩
  | (operator, fns) :: rest, c =>
    match (Check.inner operator fns c).result with
    | .error e => ⟨.error e, (Check.inner operator fns c).conf⟩
    | .ok () => Check.outer rest (Check.inner operator fns c).conf

/-- The method `Check`. -/
def Check (c : Config) : Outcome :=
  Check.outer c.Operators c

/-! ## The rules of the specification, in its words -/

/-- The descriptor's underlying kind is callable. -/
def Tag.Callable (tag : Tag) : Prop :=
  match tag.Typ with
  | none => False
  | some t => t.Kind = Kind.Func

/-- Catalogue-resident shape: the signature's declared output count is 1 and
its declared input count is 2 for a free function, 3 for a bound method. -/
def Tag.ShapeOk (tag : Tag) : Prop :=
  match tag.Typ with
  | none => False
  | some t => t.NumOut = .ok 1 ∧ t.NumIn = .ok (if tag.Method then 3 else 2)

/-- Registry-resident shape: at least one overload, and every overload takes
exactly 2 inputs and produces exactly 1 output. -/
def Function.ShapeOk (f : Function) : Prop :=
  f.Types ≠ [] ∧ ∀ t ∈ f.Types, t.NumIn = .ok 2 ∧ t.NumOut = .ok 1

/-- A candidate name is acceptable: (1) it is in the Function Registry or in
the Type Catalogue with a callable kind, (2) if it is in the Type Catalogue
its signature has the catalogue shape, (3) if it is in the Function Registry
its descriptor has the registry shape. -/
def Acceptable (c : Config) (fn : String) : Prop :=
  ((c.Functions.index fn).isSome ∨ ∃ tag, c.Types.index fn = some tag ∧ tag.Callable) ∧
  (∀ tag, c.Types.index fn = some tag → tag.ShapeOk) ∧
  (∀ f, c.Functions.index fn = some f → f.ShapeOk)

/-- The call panicked. -/
def Outcome.Fails (o : Outcome) : Prop := ∃ e, o.result = .error e

/-- The underlying type: the names of defined types looked through. -/
def RType.underlying : RType → RType
  | .named _ u => u.underlying
  | t => t

/-- The value is an associative container keyed by string with
dynamically-typed values: its type is, under the names of defined types,
`map[string]interface{}`. -/
def IsDynamicStringMap (env : Interface) : Prop :=
  (TypeOf env).map RType.underlying = some RType.mapStringInterface

instance (tag : Tag) : Decidable tag.Callable :=
  match h : tag.Typ with
  | none => isFalse (by simp [Tag.Callable, h])
  | some t => decidable_of_iff (t.Kind = Kind.Func) (by simp [Tag.Callable, h])

instance (tag : Tag) : Decidable tag.ShapeOk :=
  match h : tag.Typ with
  | none => isFalse (by simp [Tag.ShapeOk, h])
  | some t =>
    decidable_of_iff (t.NumOut = .ok 1 ∧ t.NumIn = .ok (if tag.Method then 3 else 2))
      (by simp [Tag.ShapeOk, h])

instance (f : Function) : Decidable f.ShapeOk := by
  unfold Function.ShapeOk; exact inferInstance

instance (c : Config) (fn : String) : Decidable (Acceptable c fn) :=
  match hf : c.Functions.index fn, ht : c.Types.index fn with
  | none, none => isFalse (by simp [Acceptable, hf, ht])
  | none, some tag =>
    decidable_of_iff (tag.Callable ∧ tag.ShapeOk) (by simp [Acceptable, hf, ht])
  | some f, none => decidable_of_iff f.ShapeOk (by simp [Acceptable, hf, ht])
  | some f, some tag =>
    decidable_of_iff (tag.ShapeOk ∧ f.ShapeOk) (by simp [Acceptable, hf, ht])

instance (env : Interface) : Decidable (IsDynamicStringMap env) := by
  unfold IsDynamicStringMap; exact inferInstance

/-! ## Configurations of the scenarios -/

/-- Operator "+" has the one candidate "Add", which the catalogue holds as a
function of `numIn` inputs and one output, bound method or not; the registry
is empty. -/
def addConfig (numIn : Nat) (method : Bool) : Config :=
  { (Operator "+" ["Add"] (CreateNew [])).conf with
    Types := [("Add", { Typ := some (.func numIn 1), Method := method })] }

/-- Operator "-" has the candidates "Sub", a free function of two inputs and
one output in the catalogue, and then "Gone"; `gone` is the rest of the
catalogue, and the registry is empty. -/
def goneConfig (gone : TypesTable) : Config :=
  { (Operator "-" ["Sub", "Gone"] (CreateNew [])).conf with
    Types := ("Sub", { Typ := some (.func 2 1), Method := false }) :: gone }

/-- Operator "in" has the one candidate "Contains"; the registry holds
"Contains" with the overloads given, and `types` is the catalogue. -/
def containsConfig (overloads : List RType) (types : TypesTable) : Config :=
  { (Operator "in" ["Contains"]
      (CreateNew [{ Name := "Contains", Types := overloads }])).conf with Types := types }

/-- Operator `op` has the one candidate "Size", which the registry holds
with no overload; `types` is the catalogue. -/
def sizeConfig (op : String) (types : TypesTable) : Config :=
  { (Operator op ["Size"] (CreateNew [{ Name := "Size", Types := [] }])).conf with
    Types := types }

/-- Operator "+" has the one candidate "Add", which the registry holds with
the one overload of two inputs and one output; `types` is the catalogue. -/
def addRegistryConfig (types : TypesTable) : Config :=
  { (Operator "+" ["Add"] (CreateNew [{ Name := "Add", Types := [.func 2 1] }])).conf with
    Types := types }

/-- A value of the defined type `type Env map[string]interface{}`. -/
def namedMapEnv : Interface := some { typ := .named "Env" .mapStringInterface, data := 0 }

/-- A value of type `map[string]interface{}`. -/
def dynamicMapEnv : Interface := some { typ := .mapStringInterface, data := 1 }

/-- A value of type `map[string]int`. -/
def intMapEnv : Interface :=
  some { typ := .mapOf (.basic .string) (.basic .int), data := 2 }

/-- A value of a struct type. -/
def structEnv : Interface := some { typ := .struct "Env", data := 3 }

/-- A value of type `map[string]interface{}` that holds a key which
`CreateTypesTable` refuses. -/
def refusedMapEnv : Interface := some { typ := .mapStringInterface, data := 6 }

/-- A `CreateTypesTable` for the scenarios: the empty catalogue for every
environment. -/
def emptyCatalogue (_env : Interface) : Except Err TypesTable := .ok []

/-- A `CreateTypesTable` for the scenarios: it panics on `refusedMapEnv` and
gives the empty catalogue for every other environment. -/
def guardedCatalogue (env : Interface) : Except Err TypesTable :=
  if env = refusedMapEnv then .error (.foreign "cannot create the types table") else .ok []

/-- A lookup for the scenarios of `ConstExpr`, as `runtime.Fetch` answers on
an environment that holds a function "f" and an int "n" and nothing else: any
other name makes the lookup panic. -/
def sampleFetch (_env : Interface) (name : String) : Except Err Interface :=
  if name = "f" then .ok (some { typ := .func 1 1, data := 4 })
  else if name = "n" then .ok (some { typ := .basic .int, data := 5 })
  else .error (.foreign "cannot fetch")

/-! ## Sequences of calls -/

/-- The flag `mapEnv` that `WithEnv` computes for `env`. -/
def mapEnvOf (env : Interface) : Bool :=
  decide (TypeOf env = some RType.mapStringInterface)

/-- The type `mapValueType` that `WithEnv` computes for `env`. -/
def mapValueTypeOf (env : Interface) : Option RType :=
  if TypeOf env = some RType.mapStringInterface then none
  else if env.Kind = Kind.Map then
    match TypeOf env with
    | none => none
    | some t =>
      match t.Elem with
      | .error _ => none
      | .ok elem => some elem
  else none

/-- One call of a method of `Config`. -/
inductive Call where
  | withEnv (env : Interface)
  | operator (operator : String) (fns : List String)
  | constExpr (name : String)
  | check
  deriving DecidableEq, Repr

/-- The collaborators of `config.go` outside the file: the slice
`builtin.Functions`, the function `CreateTypesTable` and `runtime.Fetch`. -/
structure Collaborators where
  builtinFunctions : List Function
  CreateTypesTable : Interface → Except Err TypesTable
  Fetch : Interface → String → Except Err Interface

/-- The outcome of one call. -/
def Call.run (w : Collaborators) : Call → Config → Outcome
  | .withEnv env, c => WithEnv w.CreateTypesTable env c
  | .operator op fns, c => Operator op fns c
  | .constExpr name, c => ConstExpr w.Fetch name c
  | .check, c => Check c

/-- The configuration after a sequence of calls, each made on the
configuration the one before left, whether that one returned or panicked. -/
def runCalls (w : Collaborators) : List Call → Config → Config
  | [], c => c
  | call :: calls, c => runCalls w calls (call.run w c).conf

/-- The configuration is reachable from `CreateNew` by a sequence of calls of
`WithEnv`, `Operator`, `ConstExpr` and `Check`. -/
def Reachable (w : Collaborators) (c : Config) : Prop :=
  ∃ calls, runCalls w calls (CreateNew w.builtinFunctions) = c

/-- The (operator, candidate) pairs of an operator table, in the order in
which `Check` visits them. -/
def pairs : OperatorsTable → List (String × String)
  | [] => []
  | (operator, fns) :: rest => fns.map (fun fn => (operator, fn)) ++ pairs rest

/-- Collaborators for the scenarios: no built-in function, an empty catalogue
for every environment, and the lookup `sampleFetch`. -/
def sampleWorld : Collaborators :=
  { builtinFunctions := [], CreateTypesTable := emptyCatalogue, Fetch := sampleFetch }

/-- Collaborators for the scenarios, as `sampleWorld` with a `CreateTypesTable`
that panics on `refusedMapEnv`. -/
def guardedWorld : Collaborators :=
  { builtinFunctions := [], CreateTypesTable := guardedCatalogue, Fetch := sampleFetch }

/-- A catalogue for the scenarios, the same for every environment: "Add" is a
free function of two inputs and one output. -/
def addCatalogue (_env : Interface) : Except Err TypesTable :=
  .ok [("Add", { Typ := some (.func 2 1), Method := false })]

/-- The operator table `ops` over a catalogue holding "Add" and "Sub" as free
functions of two inputs and one output; the registry is empty. -/
def pairsConfig (ops : OperatorsTable) : Config :=
  { CreateNew [] with
    Operators := ops
    Types := [("Add", { Typ := some (.func 2 1), Method := false }),
              ("Sub", { Typ := some (.func 2 1), Method := false })] }

/-- Two built-in functions for the scenarios. -/
def sampleBuiltins : List Function :=
  [{ Name := "len", Types := [.func 1 1] }, { Name := "abs", Types := [.func 1 1] }]

/-! ## Lemmas on the reflect model and on the loops of `Check` -/

theorem Basic.kind_ne_func (b : Basic) : b.Kind ≠ Kind.Func := by
  cases b <;> simp [Basic.Kind]

theorem RType.numIn_isOk_iff (t : RType) : (∃ n, t.NumIn = .ok n) ↔ t.Kind = Kind.Func := by
  induction t with
  | func a b => simp [RType.NumIn, RType.Kind]
  | named n u ih =>
    simp only [RType.NumIn, RType.Kind]
    rw [← ih]
    cases h : u.NumIn <;> simp
  | basic b => simp [RType.NumIn, RType.Kind, Basic.kind_ne_func]
  | _ => simp [RType.NumIn, RType.Kind]

theorem RType.numOut_isOk_iff (t : RType) : (∃ n, t.NumOut = .ok n) ↔ t.Kind = Kind.Func := by
  induction t with
  | func a b => simp [RType.NumOut, RType.Kind]
  | named n u ih =>
    simp only [RType.NumOut, RType.Kind]
    rw [← ih]
    cases h : u.NumOut <;> simp
  | basic b => simp [RType.NumOut, RType.Kind, Basic.kind_ne_func]
  | _ => simp [RType.NumOut, RType.Kind]

theorem checkType_ok_iff (tag : Tag) (fn op : String) :
    checkType tag fn op = .ok () ↔ tag.ShapeOk := by
  unfold checkType Tag.ShapeOk
  cases tag.Typ with
  | none => simp
  | some t =>
    simp only
    cases hi : t.NumIn with
    | error e => simp
    | ok n =>
      cases ho : t.NumOut with
      | error e =>
        have h1 := (RType.numIn_isOk_iff t).1 ⟨n, hi⟩
        have h2 := (RType.numOut_isOk_iff t).2 h1
        rcases h2 with ⟨m, hm⟩
        rw [ho] at hm; cases hm
      | ok m =>
        by_cases h1 : n = if tag.Method = true then 3 else 2
        · by_cases h2 : m = 1 <;> simp [h1, h2]
        · simp [h1]

theorem checkFunc.loop_ok_iff (name op : String) (ts : List RType) :
    checkFunc.loop name op ts = .ok () ↔ ∀ t ∈ ts, t.NumIn = .ok 2 ∧ t.NumOut = .ok 1 := by
  induction ts with
  | nil => simp [checkFunc.loop]
  | cons t ts ih =>
    simp only [checkFunc.loop, List.mem_cons, forall_eq_or_imp]
    cases hi : t.NumIn with
    | error e => simp
    | ok n =>
      cases ho : t.NumOut with
      | error e =>
        have h1 := (RType.numIn_isOk_iff t).1 ⟨n, hi⟩
        have h2 := (RType.numOut_isOk_iff t).2 h1
        rcases h2 with ⟨m, hm⟩
        rw [ho] at hm; cases hm
      | ok m =>
        by_cases h1 : n = 2
        · by_cases h2 : m = 1 <;> simp [h1, h2, ih]
        · simp [h1]

theorem checkFunc_ok_iff (f : Function) (name op : String) :
    checkFunc f name op = .ok () ↔ f.ShapeOk := by
  unfold checkFunc Function.ShapeOk
  by_cases h : f.Types = []
  · simp [h]
  · have : f.Types.length ≠ 0 := by simpa using h
    simp [this, h, checkFunc.loop_ok_iff]

theorem Check.body_ok_iff (c : Config) (op fn : String) :
    Check.body c op fn = .ok () ↔ Acceptable c fn := by
  unfold Check.body Acceptable
  cases hf : c.Functions.index fn with
  | some f =>
    cases ht : c.Types.index fn with
    | none => simp [checkFunc_ok_iff]
    | some tag =>
      simp only [Option.isSome_some, true_or, true_and, Option.some.injEq, forall_eq']
      rw [← checkType_ok_iff tag fn op, ← checkFunc_ok_iff f fn op]
      cases h1 : checkType tag fn op <;> simp
  | none =>
    cases ht : c.Types.index fn with
    | none => simp
    | some tag =>
      simp only [Option.isSome_none, Option.some.injEq, forall_eq', false_or, exists_eq_left']
      rw [← checkType_ok_iff tag fn op]
      have key : checkType tag fn op = .ok () → tag.Callable := by
        rw [checkType_ok_iff]
        unfold Tag.ShapeOk Tag.Callable
        cases tag.Typ with
        | none => simp
        | some t => exact fun h => (RType.numIn_isOk_iff t).1 ⟨_, h.2⟩
      unfold Tag.Callable at *
      cases hT : tag.Typ with
      | none => simp [checkType, hT]
      | some t =>
        rw [hT] at key
        simp only at key ⊢
        by_cases hk : t.Kind = Kind.Func
        · cases h1 : checkType tag fn op <;> simp [hk]
        · have : checkType tag fn op ≠ .ok () := fun h => hk (key h)
          simp [hk, this]

theorem Outcome.fails_iff (o : Outcome) : o.Fails ↔ o.result ≠ .ok () := by
  unfold Outcome.Fails
  cases h : o.result with
  | error e => simp
  | ok u => cases u; simp

theorem Check.inner_conf (op : String) (fns : List String) (c : Config) :
    (Check.inner op fns c).conf = c := by
  induction fns with
  | nil => rfl
  | cons fn fns ih =>
    unfold Check.inner
    cases h : Check.body c op fn with
    | error e => rfl
    | ok u => cases u; simpa using ih

theorem Check.inner_ok_iff (op : String) (fns : List String) (c : Config) :
    (Check.inner op fns c).result = .ok () ↔ ∀ fn ∈ fns, Check.body c op fn = .ok () := by
  induction fns with
  | nil => simp [Check.inner]
  | cons fn fns ih =>
    unfold Check.inner
    cases h : Check.body c op fn with
    | error e => simp [h]
    | ok u => cases u; simp [h, ih]

theorem Check.outer_conf (ops : List (String × List String)) (c : Config) :
    (Check.outer ops c).conf = c := by
  induction ops with
  | nil => rfl
  | cons p ops ih =>
    obtain ⟨op, fns⟩ := p
    unfold Check.outer
    rw [Check.inner_conf]
    cases h : (Check.inner op fns c).result with
    | error e => rfl
    | ok u => cases u; simpa using ih

theorem Check.outer_ok_iff (ops : List (String × List String)) (c : Config) :
    (Check.outer ops c).result = .ok () ↔
      ∀ p ∈ ops, ∀ fn ∈ p.2, Check.body c p.1 fn = .ok () := by
  induction ops with
  | nil => simp [Check.outer]
  | cons p ops ih =>
    obtain ⟨op, fns⟩ := p
    unfold Check.outer
    rw [Check.inner_conf]
    cases h : (Check.inner op fns c).result with
    | error e =>
      have := (Check.inner_ok_iff op fns c).not.1 (by simp [h])
      simp only [List.mem_cons, forall_eq_or_imp]
      constructor
      · intro h'; cases h'
      · intro h'; exact absurd h'.1 this
    | ok u =>
      cases u
      have := (Check.inner_ok_iff op fns c).1 h
      simp only [List.mem_cons, forall_eq_or_imp, ih]
      exact ⟨fun h' => ⟨this, h'⟩, fun h' => h'.2⟩

theorem Check.inner_first_error (op : String) (before after : List String) (fn : String)
    (c : Config) (e : Err) (hb : ∀ g ∈ before, Check.body c op g = .ok ())
    (hfn : Check.body c op fn = .error e) :
    (Check.inner op (before ++ fn :: after) c).result = .error e := by
  induction before with
  | nil => simp [Check.inner, hfn]
  | cons g gs ih =>
    have hg := hb g (by simp)
    simp only [List.cons_append, Check.inner, hg]
    exact ih (fun x hx => hb x (by simp [hx]))

theorem Check.outer_first_error (pre post : List (String × List String)) (op : String)
    (fns : List String) (c : Config) (e : Err)
    (hpre : ∀ p ∈ pre, ∀ g ∈ p.2, Check.body c p.1 g = .ok ())
    (hin : (Check.inner op fns c).result = .error e) :
    (Check.outer (pre ++ (op, fns) :: post) c).result = .error e := by
  induction pre with
  | nil => simp [Check.outer, hin]
  | cons p ps ih =>
    obtain ⟨o, gs⟩ := p
    have hg := (Check.inner_ok_iff o gs c).2 (hpre (o, gs) (by simp))
    simp only [List.cons_append, Check.outer, hg, Check.inner_conf]
    exact ih (fun x hx => hpre x (by simp [hx]))

theorem Check_ok_iff (c : Config) :
    (Check c).result = .ok () ↔ ∀ p ∈ c.Operators, ∀ fn ∈ p.2, Acceptable c fn := by
  unfold Check
  rw [Check.outer_ok_iff]
  simp only [Check.body_ok_iff]

theorem Check_fails_of_bad_pair (c : Config) (pre post : OperatorsTable) (op : String)
    (before after : List String) (fn : String)
    (hops : c.Operators = pre ++ (op, before ++ fn :: after) :: post)
    (hbad : ¬ Acceptable c fn) : (Check c).Fails := by
  rw [Outcome.fails_iff, Ne, Check_ok_iff]
  intro h
  exact hbad (h (op, before ++ fn :: after) (by simp [hops]) fn (by simp))

theorem contains_doesNotExist (fn operator : String) :
    ∃ msg, (Err.doesNotExist fn operator).text = some msg ∧ Contains msg fn ∧
      Contains msg operator := by
  refine ⟨_, rfl, ?_, ?_⟩
  · refine ⟨"function ".data, (" for " ++ operator ++ " operator does not exist in the environment").data, ?_⟩
    simp [String.data_append]
  · refine ⟨("function " ++ fn ++ " for ").data, " operator does not exist in the environment".data, ?_⟩
    simp [String.data_append]

theorem contains_badSignature (fn operator : String) :
    ∃ msg, (Err.badSignature fn operator).text = some msg ∧ Contains msg fn ∧
      Contains msg operator := by
  refine ⟨_, rfl, ?_, ?_⟩
  · refine ⟨"function ".data, (" for " ++ operator ++ " operator does not have a correct signature").data, ?_⟩
    simp [String.data_append]
  · refine ⟨("function " ++ fn ++ " for ").data, " operator does not have a correct signature".data, ?_⟩
    simp [String.data_append]

theorem contains_missesTypes (fn operator : String) :
    ∃ msg, (Err.missesTypes fn operator).text = some msg ∧ Contains msg fn ∧
      Contains msg operator := by
  refine ⟨_, rfl, ?_, ?_⟩
  · refine ⟨"function ".data, (" for " ++ operator ++ " operator misses types").data, ?_⟩
    simp [String.data_append]
  · refine ⟨("function " ++ fn ++ " for ").data, " operator misses types".data, ?_⟩
    simp [String.data_append]

/-- The first failing pair decides the error of `Check`. -/
theorem Check_first_error (c : Config) (pre post : OperatorsTable) (op : String)
    (before after : List String) (fn : String) (e : Err)
    (hops : c.Operators = pre ++ (op, before ++ fn :: after) :: post)
    (hpre : ∀ p ∈ pre, ∀ g ∈ p.2, Acceptable c g)
    (hbefore : ∀ g ∈ before, Acceptable c g)
    (hfn : Check.body c op fn = .error e) :
    (Check c).result = .error e := by
  unfold Check
  rw [hops]
  apply Check.outer_first_error
  · intro p hp g hg
    exact (Check.body_ok_iff c p.1 g).2 (hpre p hp g hg)
  · apply Check.inner_first_error
    · intro g hg
      exact (Check.body_ok_iff c op g).2 (hbefore g hg)
    · exact hfn

theorem Check.body_unresolvable (c : Config) (op fn : String)
    (hreg : c.Functions.index fn = none)
    (hcat : c.Types.index fn = none ∨
      ∃ tag t, c.Types.index fn = some tag ∧ tag.Typ = some t ∧ t.Kind ≠ Kind.Func) :
    Check.body c op fn = .error (.doesNotExist fn op) := by
  unfold Check.body
  rcases hcat with h | ⟨tag, t, h, ht, hk⟩
  · simp [hreg, h]
  · simp [hreg, h, ht, hk]

theorem RType.numIn_error (t : RType) (e : Err) (h : t.NumIn = .error e) :
    e = .reflectPanic "NumIn" t := by
  cases t <;> simp [RType.NumIn] at h <;> try exact h.symm
  split at h <;> simp at h
  exact h.symm

theorem RType.numOut_error (t : RType) (e : Err) (h : t.NumOut = .error e) :
    e = .reflectPanic "NumOut" t := by
  cases t <;> simp [RType.NumOut] at h <;> try exact h.symm
  split at h <;> simp at h
  exact h.symm

theorem checkType_error (tag : Tag) (fn op : String) (e : Err)
    (h : checkType tag fn op = .error e) :
    e = .badSignature fn op ∨ e = .nilDereference ∨ ∃ m t, e = .reflectPanic m t := by
  unfold checkType at h
  cases hT : tag.Typ with
  | none => simp [hT] at h; exact Or.inr (Or.inl h.symm)
  | some t =>
    simp only [hT] at h
    cases hi : t.NumIn with
    | error e' =>
      simp [hi] at h; subst h; exact Or.inr (Or.inr ⟨_, _, RType.numIn_error t _ hi⟩)
    | ok n =>
      simp only [hi] at h
      by_cases h1 : n = if tag.Method = true then 3 else 2
      · simp only [h1, ne_eq, not_true_eq_false, if_false] at h
        cases ho : t.NumOut with
        | error e' =>
          simp [ho] at h; subst h; exact Or.inr (Or.inr ⟨_, _, RType.numOut_error t _ ho⟩)
        | ok m =>
          simp only [ho] at h
          by_cases h2 : m = 1
          · simp [h2] at h
          · simp [h2] at h; exact Or.inl h.symm
      · simp [h1] at h; exact Or.inl h.symm

theorem checkFunc.loop_error (name op : String) (ts : List RType) (e : Err)
    (h : checkFunc.loop name op ts = .error e) :
    e = .badSignature name op ∨ ∃ m t, e = .reflectPanic m t := by
  induction ts with
  | nil => simp [checkFunc.loop] at h
  | cons t ts ih =>
    simp only [checkFunc.loop] at h
    cases hi : t.NumIn with
    | error e' =>
      simp [hi] at h; subst h; exact Or.inr ⟨_, _, RType.numIn_error t _ hi⟩
    | ok n =>
      simp only [hi] at h
      by_cases h1 : n = 2
      · simp only [h1, ne_eq, not_true_eq_false, if_false] at h
        cases ho : t.NumOut with
        | error e' =>
          simp [ho] at h; subst h; exact Or.inr ⟨_, _, RType.numOut_error t _ ho⟩
        | ok m =>
          simp only [ho] at h
          by_cases h2 : m = 1
          · simp only [h2, ne_eq, not_true_eq_false, if_false] at h
            exact ih h
          · simp [h2] at h; exact Or.inl h.symm
      · simp [h1] at h; exact Or.inl h.symm

theorem checkFunc_error (f : Function) (name op : String) (e : Err)
    (h : checkFunc f name op = .error e) :
    e = .missesTypes name op ∨ e = .badSignature name op ∨ ∃ m t, e = .reflectPanic m t := by
  unfold checkFunc at h
  split at h
  · simp at h; exact Or.inl h.symm
  · exact Or.inr (checkFunc.loop_error name op _ e h)

/-- With the name in the registry, the body runs `checkType` on the catalogue
entry, if there is one, and then `checkFunc`. -/
theorem Check.body_registry (c : Config) (op fn : String) (f : Function)
    (hreg : c.Functions.index fn = some f) :
    Check.body c op fn =
      match c.Types.index fn with
      | none => checkFunc f fn op
      | some tag =>
        match checkType tag fn op with
        | .error e => .error e
        | .ok () => checkFunc f fn op := by
  unfold Check.body
  cases ht : c.Types.index fn with
  | none => simp [hreg]
  | some tag => cases h : checkType tag fn op <;> simp [hreg, h]

theorem Check_single (c : Config) (op fn : String) (hops : c.Operators = [(op, [fn])]) :
    (Check c).result = Check.body c op fn := by
  unfold Check
  rw [hops]
  simp only [Check.outer, Check.inner]
  cases h : Check.body c op fn with
  | error e => rfl
  | ok u => cases u; rfl


theorem Check.body_registry_error (c : Config) (op fn : String) (f : Function) (e : Err)
    (hreg : c.Functions.index fn = some f) (h : Check.body c op fn = .error e) :
    e ≠ .doesNotExist fn op := by
  rw [Check.body_registry c op fn f hreg] at h
  intro he
  subst he
  cases ht : c.Types.index fn with
  | none =>
    simp only [ht] at h
    rcases checkFunc_error f fn op _ h with h' | h' | ⟨m, t, h'⟩ <;> cases h'
  | some tag =>
    simp only [ht] at h
    cases hc : checkType tag fn op with
    | error e' =>
      simp only [hc] at h
      cases h
      rcases checkType_error tag fn op _ hc with h' | h' | ⟨m, t, h'⟩ <;> cases h'
    | ok u =>
      cases u
      simp only [hc] at h
      rcases checkFunc_error f fn op _ h with h' | h' | ⟨m, t, h'⟩ <;> cases h'

/-- A bad overload makes checkFunc fail, wherever it stands. -/
theorem checkFunc_bad_overload (f : Function) (name op : String)
    (hbad : ∃ t ∈ f.Types, ¬ (t.NumIn = .ok 2 ∧ t.NumOut = .ok 1)) :
    ∃ e, checkFunc f name op = .error e ∧
      (e = .badSignature name op ∨ ∃ m t, e = .reflectPanic m t) := by
  have hne : checkFunc f name op ≠ .ok () := by
    rw [Ne, checkFunc_ok_iff]
    rintro ⟨_, hall⟩
    obtain ⟨t, ht, hnot⟩ := hbad
    exact hnot (hall t ht)
  cases h : checkFunc f name op with
  | ok u => cases u; exact absurd h hne
  | error e =>
    refine ⟨e, rfl, ?_⟩
    rcases checkFunc_error f name op e h with h' | h' | h'
    · exfalso
      subst h'
      unfold checkFunc at h
      split at h
      · obtain ⟨t, ht, _⟩ := hbad
        have : f.Types = [] := List.length_eq_zero.1 (by assumption)
        rw [this] at ht; cases ht
      · rcases checkFunc.loop_error name op _ _ h with h'' | ⟨m, t, h''⟩ <;> cases h''
    · exact Or.inl h'
    · exact Or.inr h'

theorem checkType_callable_error (tag : Tag) (fn op : String) (e : Err)
    (hcall : tag.Callable) (h : checkType tag fn op = .error e) :
    e = .badSignature fn op := by
  unfold Tag.Callable at hcall
  unfold checkType at h
  cases hT : tag.Typ with
  | none => simp [hT] at hcall
  | some t =>
    simp only [hT] at h hcall
    obtain ⟨n, hn⟩ := (RType.numIn_isOk_iff t).2 hcall
    obtain ⟨k, hk⟩ := (RType.numOut_isOk_iff t).2 hcall
    simp only [hn, hk] at h
    by_cases h1 : n = if tag.Method = true then 3 else 2
    · simp only [h1, ne_eq, not_true_eq_false, if_false] at h
      by_cases h2 : k = 1
      · simp [h2] at h
      · simp [h2] at h; exact h.symm
    · simp [h1] at h; exact h.symm

theorem checkFunc.loop_no_reflect (name op : String) (ts : List RType)
    (hfuncs : ∀ t ∈ ts, t.Kind = Kind.Func) (m : String) (t : RType) :
    checkFunc.loop name op ts ≠ .error (.reflectPanic m t) := by
  induction ts with
  | nil => simp [checkFunc.loop]
  | cons u us ih =>
    have hu := hfuncs u (by simp)
    obtain ⟨n, hn⟩ := (RType.numIn_isOk_iff u).2 hu
    obtain ⟨k, hk⟩ := (RType.numOut_isOk_iff u).2 hu
    simp only [checkFunc.loop, hn, hk]
    split
    · simp
    · split
      · simp
      · exact ih (fun x hx => hfuncs x (by simp [hx]))

/-- The registry rule on a candidate that the catalogue does not hold, or
holds with a callable kind: a bad overload among function types gives the
signature error naming the function and the operator. -/
theorem Check.body_bad_overload (c : Config) (op fn : String) (f : Function)
    (hreg : c.Functions.index fn = some f)
    (hfuncs : ∀ t ∈ f.Types, t.Kind = Kind.Func)
    (hbad : ∃ t ∈ f.Types, ¬ (t.NumIn = .ok 2 ∧ t.NumOut = .ok 1))
    (hcat : ∀ tag, c.Types.index fn = some tag → tag.Callable) :
    Check.body c op fn = .error (.badSignature fn op) := by
  have hf : checkFunc f fn op = .error (.badSignature fn op) := by
    obtain ⟨e, he, hcase⟩ := checkFunc_bad_overload f fn op hbad
    rcases hcase with h | ⟨m, t, h⟩
    · rw [he, h]
    · exfalso
      subst h
      unfold checkFunc at he
      split at he
      · cases he
      · exact checkFunc.loop_no_reflect fn op f.Types hfuncs m t he
  rw [Check.body_registry c op fn f hreg]
  cases ht : c.Types.index fn with
  | none => simpa using hf
  | some tag =>
    simp only
    cases hc : checkType tag fn op with
    | ok u => cases u; simpa using hf
    | error e =>
      simp only
      rw [checkType_callable_error tag fn op e (hcat tag ht) hc]

theorem GoMap.index_store_same {V : Type} (m : GoMap V) (k : String) (v : V) :
    (m.store k v).index k = some v := by
  induction m with
  | nil => simp [GoMap.store, GoMap.index]
  | cons p m ih =>
    obtain ⟨k', v'⟩ := p
    by_cases h : k' = k
    · simp [GoMap.store, GoMap.index, h]
    · simp [GoMap.store, GoMap.index, h, ih]

theorem GoMap.index_store_other {V : Type} (m : GoMap V) (k other : String) (v : V)
    (hne : other ≠ k) : (m.store k v).index other = m.index other := by
  induction m with
  | nil => simp [GoMap.store, GoMap.index, Ne.symm hne]
  | cons p m ih =>
    obtain ⟨k', v'⟩ := p
    by_cases h : k' = k
    · subst h
      simp [GoMap.store, GoMap.index, Ne.symm hne]
    · by_cases h2 : k' = other
      · subst h2
        simp [GoMap.store, GoMap.index, h]
      · simp [GoMap.store, GoMap.index, h, h2, ih]

theorem GoMap.store_store {V : Type} (m : GoMap V) (k : String) (v w : V) :
    (m.store k v).store k w = m.store k w := by
  induction m with
  | nil => simp [GoMap.store]
  | cons p m ih =>
    obtain ⟨k', v'⟩ := p
    by_cases h : k' = k
    · simp [GoMap.store, h]
    · simp [GoMap.store, h, ih]

theorem RType.elem_of_map (t : RType) (h : t.Kind = Kind.Map) : ∃ elem, t.Elem = .ok elem := by
  induction t with
  | mapOf k e => exact ⟨e, rfl⟩
  | named n u ih =>
    obtain ⟨e, he⟩ := ih (by simpa [RType.Kind] using h)
    exact ⟨e, by simp [RType.Elem, he]⟩
  | basic b => cases b <;> simp [RType.Kind, Basic.Kind] at h
  | _ => simp [RType.Kind] at h

theorem Acceptable_congr (c d : Config) (fn : String) (hT : d.Types = c.Types)
    (hF : d.Functions = c.Functions) : Acceptable d fn ↔ Acceptable c fn := by
  unfold Acceptable
  rw [hT, hF]
/-- The sweep of the input counts 0..4 over free functions and bound methods,
for "Add" as the one candidate of "+", by evaluation. -/
theorem Check_arity_sweep :
    ∀ n ∈ List.range 5, ∀ method : Bool,
      ((Check (addConfig n method)).result = .ok () ↔ n = if method then 3 else 2) := by
  decide

/-! ## Lemmas on sequences of calls, on failures of `Check` and on `CreateNew` -/

/-- What `WithEnv` leaves when `CreateTypesTable` returns. -/
theorem WithEnv_eq_ok (T : Interface → Except Err TypesTable) (env : Interface) (c : Config)
    (types : TypesTable) (hT : T env = .ok types) :
    WithEnv T env c =
      ⟨.ok (), { c with Env := env, Types := types, MapEnv := mapEnvOf env,
                        DefaultType := mapValueTypeOf env, Strict := true }⟩ := by
  cases env with
  | none => simp [WithEnv, TypeOf, Interface.Kind, mapEnvOf, mapValueTypeOf, hT]
  | some v =>
    have hT1 : TypeOf (some v) = some v.typ := rfl
    have hK : Interface.Kind (some v) = v.typ.Kind := rfl
    by_cases h1 : v.typ = RType.mapStringInterface
    · simp [WithEnv, hT1, hK, h1, mapEnvOf, mapValueTypeOf, hT]
    · by_cases h2 : v.typ.Kind = Kind.Map
      · obtain ⟨elem, he⟩ := RType.elem_of_map v.typ h2
        simp [WithEnv, hT1, hK, h1, h2, he, mapEnvOf, mapValueTypeOf, hT]
      · simp [WithEnv, hT1, hK, h1, h2, mapEnvOf, mapValueTypeOf, hT]

/-- What `WithEnv` leaves when `CreateTypesTable` panics. -/
theorem WithEnv_eq_error (T : Interface → Except Err TypesTable) (env : Interface)
    (c : Config) (e : Err) (hT : T env = .error e) :
    WithEnv T env c = ⟨.error e, { c with Env := env }⟩ := by
  cases env with
  | none => simp [WithEnv, TypeOf, Interface.Kind, hT]
  | some v =>
    have hT1 : TypeOf (some v) = some v.typ := rfl
    have hK : Interface.Kind (some v) = v.typ.Kind := rfl
    by_cases h1 : v.typ = RType.mapStringInterface
    · simp [WithEnv, hT1, hK, h1, hT]
    · by_cases h2 : v.typ.Kind = Kind.Map
      · obtain ⟨elem, he⟩ := RType.elem_of_map v.typ h2
        simp [WithEnv, hT1, hK, h1, h2, he, hT]
      · simp [WithEnv, hT1, hK, h1, h2, hT]

/-- The method `WithEnv` returns exactly when `CreateTypesTable` does. -/
theorem WithEnv_result (T : Interface → Except Err TypesTable) (env : Interface)
    (c : Config) : (WithEnv T env c).result = (T env).map (fun _ => ()) := by
  cases h : T env with
  | error e => rw [WithEnv_eq_error T env c e h]; rfl
  | ok types => rw [WithEnv_eq_ok T env c types h]; rfl

/-- The method `WithEnv` writes `Env` whether it returns or panics. -/
theorem WithEnv_env (T : Interface → Except Err TypesTable) (env : Interface)
    (c : Config) : (WithEnv T env c).conf.Env = env := by
  cases h : T env with
  | error e => rw [WithEnv_eq_error T env c e h]
  | ok types => rw [WithEnv_eq_ok T env c types h]

theorem mapEnvOf_excludes (env : Interface) : mapEnvOf env = true → mapValueTypeOf env = none := by
  intro h
  have : TypeOf env = some RType.mapStringInterface := by simpa [mapEnvOf] using h
  simp [mapValueTypeOf, this]

theorem Check_conf (c : Config) : (Check c).conf = c := Check.outer_conf c.Operators c

/-- The two ways a call of `ConstExpr` ends: it panics and leaves the
configuration as it was, or it returns and has stored the function. -/
theorem ConstExpr_cases_eq (F : Interface → String → Except Err Interface) (name : String)
    (c : Config) :
    (∃ e, ConstExpr F name c = ⟨.error e, c⟩) ∨
    (∃ fn, c.Env ≠ none ∧ F c.Env name = .ok fn ∧ fn.Kind = Kind.Func ∧
      ConstExpr F name c = ⟨.ok (), { c with ConstFns := c.ConstFns.store name fn }⟩) := by
  unfold ConstExpr
  by_cases h : c.Env = none
  · exact Or.inl ⟨_, by rw [if_pos h]⟩
  · rw [if_neg h]
    cases hf : F c.Env name with
    | error e => exact Or.inl ⟨e, rfl⟩
    | ok fn =>
      by_cases hk : fn.Kind = Kind.Func
      · exact Or.inr ⟨fn, h, rfl, hk, by simp [hk]⟩
      · exact Or.inl ⟨.constExprNotFunc name, by simp [hk]⟩

theorem CreateNew_eq (b : List Function) :
    CreateNew b =
      { Env := none, Types := [], MapEnv := false, DefaultType := none,
        Operators := [], Expect := .Invalid, ExpectAny := false,
        Optimize := true, Strict := false, ConstFns := [], Visitors := [],
        Functions := b.foldl (fun m f => GoMap.store m f.Name f) [], Pipes := false } := by
  unfold CreateNew
  simp only
  generalize ([] : FunctionTable) = m
  induction b generalizing m with
  | nil => rfl
  | cons f fs ih => simp only [List.foldl_cons]; exact ih _

/-- A call other than `WithEnv` leaves the five fields that `WithEnv` writes. -/
theorem Call.run_frame (w : Collaborators) (call : Call) (c : Config)
    (h : ∀ env, call ≠ .withEnv env) :
    (call.run w c).conf.Env = c.Env ∧ (call.run w c).conf.Types = c.Types ∧
    (call.run w c).conf.MapEnv = c.MapEnv ∧ (call.run w c).conf.DefaultType = c.DefaultType ∧
    (call.run w c).conf.Strict = c.Strict := by
  cases call with
  | withEnv env => exact absurd rfl (h env)
  | operator op fns => simp [Call.run, Operator]
  | check => simp [Call.run, Check_conf]
  | constExpr name =>
    simp only [Call.run]
    rcases ConstExpr_cases_eq w.Fetch name c with ⟨e, he⟩ | ⟨fn, _, _, _, he⟩ <;> simp [he]

theorem runCalls_append (w : Collaborators) (pre post : List Call) (c : Config) :
    runCalls w (pre ++ post) c = runCalls w post (runCalls w pre c) := by
  induction pre generalizing c with
  | nil => rfl
  | cons call pre ih => simp [runCalls, ih]

theorem runCalls_invariant (w : Collaborators) (P : Config → Prop)
    (hstep : ∀ (call : Call) (c : Config), P c → P (call.run w c).conf) (calls : List Call) (c : Config)
    (h0 : P c) : P (runCalls w calls c) := by
  induction calls generalizing c with
  | nil => exact h0
  | cons call calls ih => exact ih _ (hstep call c h0)

theorem runCalls_frame (w : Collaborators) (calls : List Call) (c : Config)
    (h : ∀ env, Call.withEnv env ∉ calls) :
    (runCalls w calls c).Env = c.Env ∧ (runCalls w calls c).Types = c.Types ∧
    (runCalls w calls c).MapEnv = c.MapEnv ∧ (runCalls w calls c).DefaultType = c.DefaultType ∧
    (runCalls w calls c).Strict = c.Strict := by
  induction calls generalizing c with
  | nil => simp [runCalls]
  | cons call calls ih =>
    have h1 : ∀ env, call ≠ .withEnv env := fun env he => h env (by simp [he])
    have h2 : ∀ env, Call.withEnv env ∉ calls := fun env he => h env (by simp [he])
    obtain ⟨a1, a2, a3, a4, a5⟩ := Call.run_frame w call c h1
    obtain ⟨b1, b2, b3, b4, b5⟩ := ih (call.run w c).conf h2
    simp only [runCalls]
    exact ⟨b1.trans a1, b2.trans a2, b3.trans a3, b4.trans a4, b5.trans a5⟩

/-- Strict checking is on only after a call of `WithEnv`. -/
theorem runCalls_strict_only_if (w : Collaborators) (calls : List Call) (c : Config) :
    (runCalls w calls c).Strict = true →
      c.Strict = true ∨ ∃ env, Call.withEnv env ∈ calls := by
  induction calls generalizing c with
  | nil => intro h; exact Or.inl h
  | cons call calls ih =>
    intro h
    simp only [runCalls] at h
    rcases ih _ h with h1 | ⟨env, henv⟩
    · cases call with
      | withEnv env => exact Or.inr ⟨env, by simp⟩
      | operator op fns =>
        rw [(Call.run_frame w (.operator op fns) c (by simp)).2.2.2.2] at h1
        exact Or.inl h1
      | constExpr name =>
        rw [(Call.run_frame w (.constExpr name) c (by simp)).2.2.2.2] at h1
        exact Or.inl h1
      | check =>
        rw [(Call.run_frame w .check c (by simp)).2.2.2.2] at h1
        exact Or.inl h1
    · exact Or.inr ⟨env, by simp [henv]⟩

theorem runCalls_env_of_strict (w : Collaborators) (calls : List Call) (c : Config)
    (h0 : c.Strict = true → c.Env ≠ none)
    (hne : ∀ env, Call.withEnv env ∈ calls → env ≠ none) :
    (runCalls w calls c).Strict = true → (runCalls w calls c).Env ≠ none := by
  induction calls generalizing c with
  | nil => exact h0
  | cons call calls ih =>
    simp only [runCalls]
    apply ih
    · cases call with
      | withEnv env =>
        intro _
        simp only [Call.run, WithEnv_env]
        exact hne env (by simp)
      | operator op fns =>
        obtain ⟨a1, _, _, _, a5⟩ := Call.run_frame w (.operator op fns) c (by simp)
        rw [a1, a5]; exact h0
      | constExpr name =>
        obtain ⟨a1, _, _, _, a5⟩ := Call.run_frame w (.constExpr name) c (by simp)
        rw [a1, a5]; exact h0
      | check =>
        obtain ⟨a1, _, _, _, a5⟩ := Call.run_frame w .check c (by simp)
        rw [a1, a5]; exact h0
    · intro env he; exact hne env (by simp [he])

theorem GoMap.store_pairs (m : OperatorsTable) (op : String) (fns : List String)
    (fn : String) :
    (∃ p ∈ m.store op ((m.index op).getD [] ++ fns), fn ∈ p.2) ↔
      (∃ p ∈ m, fn ∈ p.2) ∨ fn ∈ fns := by
  induction m with
  | nil => simp [GoMap.store, GoMap.index]
  | cons q m ih =>
    obtain ⟨k, v⟩ := q
    by_cases h : k = op
    · simp only [GoMap.store, GoMap.index, h, if_true, Option.getD_some, List.mem_cons,
        exists_eq_or_imp, List.mem_append]
      generalize (∃ p ∈ m, fn ∈ p.2) = E
      tauto
    · simp only [GoMap.store, GoMap.index, h, if_false, List.mem_cons, exists_eq_or_imp]
      rw [ih]
      generalize (∃ p ∈ m, fn ∈ p.2) = E
      tauto

theorem Check_ok_iff_names (c : Config) :
    (Check c).result = .ok () ↔ ∀ fn, (∃ p ∈ c.Operators, fn ∈ p.2) → Acceptable c fn := by
  rw [Check_ok_iff]
  constructor
  · rintro h fn ⟨p, hp, hfn⟩; exact h p hp fn hfn
  · intro h p hp fn hfn; exact h fn ⟨p, hp, hfn⟩

theorem Check_after_Operator_iff (c : Config) (op : String) (fns : List String) :
    (Check (Operator op fns c).conf).result = .ok () ↔
      (Check c).result = .ok () ∧ ∀ fn ∈ fns, Acceptable c fn := by
  rw [Check_ok_iff_names, Check_ok_iff_names]
  have hA : ∀ fn, Acceptable (Operator op fns c).conf fn ↔ Acceptable c fn :=
    fun fn => Acceptable_congr c (Operator op fns c).conf fn rfl rfl
  simp only [hA]
  have hP : ∀ fn, (∃ p ∈ (Operator op fns c).conf.Operators, fn ∈ p.2) ↔
      (∃ p ∈ c.Operators, fn ∈ p.2) ∨ fn ∈ fns :=
    fun fn => GoMap.store_pairs c.Operators op fns fn
  simp only [hP]
  constructor
  · intro h; exact ⟨fun fn hfn => h fn (Or.inl hfn), fun fn hfn => h fn (Or.inr hfn)⟩
  · rintro ⟨h1, h2⟩ fn (hfn | hfn)
    · exact h1 fn hfn
    · exact h2 fn hfn

theorem Check.inner_error (op : String) (fns : List String) (c : Config) (e : Err)
    (h : (Check.inner op fns c).result = .error e) :
    ∃ fn ∈ fns, Check.body c op fn = .error e := by
  induction fns with
  | nil => simp [Check.inner] at h
  | cons fn fns ih =>
    unfold Check.inner at h
    cases hb : Check.body c op fn with
    | error e' =>
      simp only [hb] at h
      cases h
      exact ⟨fn, by simp, hb⟩
    | ok u =>
      cases u
      simp only [hb] at h
      obtain ⟨g, hg, hbody⟩ := ih h
      exact ⟨g, by simp [hg], hbody⟩

theorem Check.outer_error (ops : List (String × List String)) (c : Config) (e : Err)
    (h : (Check.outer ops c).result = .error e) :
    ∃ p ∈ ops, ∃ fn ∈ p.2, Check.body c p.1 fn = .error e := by
  induction ops with
  | nil => simp [Check.outer] at h
  | cons p ops ih =>
    obtain ⟨op, fns⟩ := p
    unfold Check.outer at h
    rw [Check.inner_conf] at h
    cases hi : (Check.inner op fns c).result with
    | error e' =>
      simp only [hi] at h
      cases h
      obtain ⟨fn, hfn, hbody⟩ := Check.inner_error op fns c _ hi
      exact ⟨(op, fns), by simp, fn, hfn, hbody⟩
    | ok u =>
      cases u
      simp only [hi] at h
      obtain ⟨p, hp, fn, hfn, hbody⟩ := ih h
      exact ⟨p, by simp [hp], fn, hfn, hbody⟩

/-- What the body of the loop can panic with for the pair (op, fn). -/
theorem Check.body_error (c : Config) (op fn : String) (e : Err)
    (h : Check.body c op fn = .error e) :
    e = .doesNotExist fn op ∨ e = .badSignature fn op ∨ e = .missesTypes fn op ∨
      e = .nilDereference ∨ ∃ m t, e = .reflectPanic m t := by
  cases hf : c.Functions.index fn with
  | some f =>
    rw [Check.body_registry c op fn f hf] at h
    cases ht : c.Types.index fn with
    | none =>
      simp only [ht] at h
      rcases checkFunc_error f fn op e h with h' | h' | h'
      · exact Or.inr (Or.inr (Or.inl h'))
      · exact Or.inr (Or.inl h')
      · exact Or.inr (Or.inr (Or.inr (Or.inr h')))
    | some tag =>
      simp only [ht] at h
      cases hc : checkType tag fn op with
      | error e' =>
        simp only [hc] at h
        cases h
        rcases checkType_error tag fn op _ hc with h' | h' | h'
        · exact Or.inr (Or.inl h')
        · exact Or.inr (Or.inr (Or.inr (Or.inl h')))
        · exact Or.inr (Or.inr (Or.inr (Or.inr h')))
      | ok u =>
        cases u
        simp only [hc] at h
        rcases checkFunc_error f fn op e h with h' | h' | h'
        · exact Or.inr (Or.inr (Or.inl h'))
        · exact Or.inr (Or.inl h')
        · exact Or.inr (Or.inr (Or.inr (Or.inr h')))
  | none =>
    unfold Check.body at h
    cases ht : c.Types.index fn with
    | none => simp [hf, ht] at h; exact Or.inl h.symm
    | some tag =>
      cases hT : tag.Typ with
      | none => simp [hf, ht, hT] at h; exact Or.inr (Or.inr (Or.inr (Or.inl h.symm)))
      | some t =>
        by_cases hk : t.Kind = Kind.Func
        · simp only [hf, ht, hT, hk, ne_eq, not_true_eq_false, decide_False] at h
          cases hc : checkType tag fn op with
          | error e' =>
            simp only [hc] at h
            cases h
            rcases checkType_error tag fn op _ hc with h' | h' | h'
            · exact Or.inr (Or.inl h')
            · exact Or.inr (Or.inr (Or.inr (Or.inl h')))
            · exact Or.inr (Or.inr (Or.inr (Or.inr h')))
          | ok u => cases u; simp [hc] at h
        · simp [hf, ht, hT, hk] at h; exact Or.inl h.symm

/-- A failure of `Check` is the failure of the body on a pair of the operator
table that is not acceptable, and a configuration error among the failures
names that pair. -/
theorem Check_error_pair (c : Config) (e : Err) (h : (Check c).result = .error e) :
    ∃ p ∈ c.Operators, ∃ fn ∈ p.2, Check.body c p.1 fn = .error e ∧ ¬ Acceptable c fn ∧
      (e = .doesNotExist fn p.1 ∨ e = .badSignature fn p.1 ∨ e = .missesTypes fn p.1 ∨
        e = .nilDereference ∨ ∃ m t, e = .reflectPanic m t) := by
  obtain ⟨p, hp, fn, hfn, hbody⟩ := Check.outer_error c.Operators c e h
  refine ⟨p, hp, fn, hfn, hbody, ?_, Check.body_error c p.1 fn e hbody⟩
  rw [← Check.body_ok_iff c p.1 fn, hbody]
  simp

theorem CreateNew.store_index_of_not_mem (b : List Function) (m : FunctionTable)
    (name : String) (h : name ∉ b.map (·.Name)) :
    GoMap.index (b.foldl (fun m f => GoMap.store m f.Name f) m) name = GoMap.index m name := by
  induction b generalizing m with
  | nil => rfl
  | cons g gs ih =>
    simp only [List.map_cons, List.mem_cons, not_or] at h
    simp only [List.foldl_cons]
    rw [ih _ h.2, GoMap.index_store_other _ _ _ _ h.1]

theorem CreateNew.store_index_of_nodup (b : List Function) (m : FunctionTable)
    (hnodup : (b.map (·.Name)).Nodup) (f : Function) (hf : f ∈ b) :
    GoMap.index (b.foldl (fun m f => GoMap.store m f.Name f) m) f.Name = some f := by
  induction b generalizing m with
  | nil => simp at hf
  | cons g gs ih =>
    simp only [List.map_cons, List.nodup_cons] at hnodup
    simp only [List.foldl_cons]
    rcases List.mem_cons.1 hf with h | h
    · subst h
      rw [CreateNew.store_index_of_not_mem gs _ _ hnodup.1, GoMap.index_store_same]
    · exact ih _ hnodup.2 h

theorem CreateNew.store_index_some (b : List Function) (m : FunctionTable)
    (name : String) (f : Function)
    (h : GoMap.index (b.foldl (fun m f => GoMap.store m f.Name f) m) name = some f) :
    (f ∈ b ∧ f.Name = name) ∨ GoMap.index m name = some f := by
  induction b generalizing m with
  | nil => exact Or.inr h
  | cons g gs ih =>
    simp only [List.foldl_cons] at h
    rcases ih _ h with ⟨h1, h2⟩ | h1
    · exact Or.inl ⟨by simp [h1], h2⟩
    · by_cases hn : name = g.Name
      · subst hn
        rw [GoMap.index_store_same] at h1
        cases h1
        exact Or.inl ⟨by simp, rfl⟩
      · rw [GoMap.index_store_other _ _ _ _ hn] at h1
        exact Or.inr h1

theorem mem_pairs (ops : OperatorsTable) (op fn : String) :
    (op, fn) ∈ pairs ops ↔ ∃ fns, (op, fns) ∈ ops ∧ fn ∈ fns := by
  induction ops with
  | nil => simp [pairs]
  | cons p ops ih =>
    obtain ⟨o, gs⟩ := p
    simp only [pairs, List.mem_append, List.mem_map, Prod.mk.injEq, ih, List.mem_cons]
    constructor
    · rintro (⟨g, hg, rfl, rfl⟩ | ⟨fns, h1, h2⟩)
      · exact ⟨gs, Or.inl ⟨rfl, rfl⟩, hg⟩
      · exact ⟨fns, Or.inr h1, h2⟩
    · rintro ⟨fns, (⟨rfl, rfl⟩ | h1), h2⟩
      · exact Or.inl ⟨fn, h2, rfl, rfl⟩
      · exact Or.inr ⟨fns, h1, h2⟩

theorem Acceptable_of_same_lookups (c d : Config)
    (hT : ∀ name, d.Types.index name = c.Types.index name)
    (hF : ∀ name, d.Functions.index name = c.Functions.index name) (fn : String) :
    Acceptable d fn ↔ Acceptable c fn := by
  unfold Acceptable
  rw [hT, hF]

/-! ## The claims -/

/-- C1. For every configuration, `Check` succeeds if and only if every
(operator, candidate) pair of the operator table is acceptable, where
acceptable is `Acceptable`: the name is in the registry or is a callable
catalogue entry, a catalogue entry has 1 output and 2 inputs (3 for a bound
method), and a registry entry has at least one overload and only overloads of
2 inputs and 1 output.  A single pair that is not acceptable, under any
operator and at any position of its sequence, makes `Check` fail, and the
empty operator table makes it succeed. -/
theorem Check_succeeds_iff_every_pair_acceptable (c : Config) :
    ((Check c).result = .ok () ↔ ∀ p ∈ c.Operators, ∀ fn ∈ p.2, Acceptable c fn) ∧
    (∀ (pre post : OperatorsTable) (op : String) (before after : List String) (fn : String),
      c.Operators = pre ++ (op, before ++ fn :: after) :: post → ¬ Acceptable c fn →
        (Check c).Fails) ∧
    (c.Operators = [] → (Check c).result = .ok ()) := by
  refine ⟨Check_ok_iff c, ?_, ?_⟩
  · intro pre post op before after fn hops hbad
    exact Check_fails_of_bad_pair c pre post op before after fn hops hbad
  · intro h
    rw [Check_ok_iff, h]
    simp

/-- C1, at concrete inputs: the fresh configuration, whose table is empty,
passes; the table with "-" for "Sub" and "Gone" fails when "Gone" is nowhere,
and passes once the catalogue holds "Gone" as a bound method of three inputs
and one output. -/
theorem Check_succeeds_iff_every_pair_acceptable_witness :
    (Check (CreateNew [])).result = .ok () ∧
    (Check (goneConfig [])).Fails ∧
    (Check (goneConfig [("Gone", { Typ := some (.func 3 1), Method := true })])).result
      = .ok () :=
  ⟨(Check_succeeds_iff_every_pair_acceptable (CreateNew [])).2.2 (by decide),
   (Check_succeeds_iff_every_pair_acceptable (goneConfig [])).2.1 [] [] "-" ["Sub"] [] "Gone"
      (by decide) (by decide),
   (Check_succeeds_iff_every_pair_acceptable
      (goneConfig [("Gone", { Typ := some (.func 3 1), Method := true })])).1.2 (by decide)⟩

/-- C2. When the operator table holds the single pair (operator, name), and
name is a callable catalogue entry, of `numIn` inputs and `numOut` outputs,
that is not in the registry, `Check` succeeds if and only if `numOut` is 1 and
`numIn` is 2 for a free function, 3 for a bound method; this for every input
count. -/
theorem Check_single_catalogue_candidate (c : Config) (operator name : String) (tag : Tag)
    (t : RType) (numIn numOut : Nat)
    (hops : c.Operators = [(operator, [name])])
    (hreg : c.Functions.index name = none)
    (hcat : c.Types.index name = some tag) (htyp : tag.Typ = some t)
    (hin : t.NumIn = .ok numIn) (hout : t.NumOut = .ok numOut) :
    (Check c).result = .ok () ↔ numOut = 1 ∧ numIn = if tag.Method then 3 else 2 := by
  have hcall : tag.Callable := by
    unfold Tag.Callable; rw [htyp]; exact (RType.numIn_isOk_iff t).1 ⟨_, hin⟩
  rw [Check_single c operator name hops, Check.body_ok_iff]
  unfold Acceptable
  simp [hreg, hcat, hcall, Tag.ShapeOk, htyp, hin, hout]

/-- C2, at the scenario: "+" with "Add" of 2 inputs and 1 output succeeds,
"Add" of 1 input fails, and as a bound method "Add" needs 3 inputs. -/
theorem Check_single_catalogue_candidate_witness :
    (Check (addConfig 2 false)).result = .ok () ∧
    (Check (addConfig 1 false)).result ≠ .ok () ∧
    (Check (addConfig 2 true)).result ≠ .ok () ∧
    (Check (addConfig 3 true)).result = .ok () :=
  ⟨(Check_single_catalogue_candidate (addConfig 2 false) "+" "Add" ⟨some (.func 2 1), false⟩
      (.func 2 1) 2 1 (by decide) (by decide) (by decide) rfl rfl rfl).2 (by decide),
   fun h => absurd ((Check_single_catalogue_candidate (addConfig 1 false) "+" "Add"
      ⟨some (.func 1 1), false⟩ (.func 1 1) 1 1 (by decide) (by decide) (by decide)
      rfl rfl rfl).1 h) (by decide),
   fun h => absurd ((Check_single_catalogue_candidate (addConfig 2 true) "+" "Add"
      ⟨some (.func 2 1), true⟩ (.func 2 1) 2 1 (by decide) (by decide) (by decide)
      rfl rfl rfl).1 h) (by decide),
   (Check_single_catalogue_candidate (addConfig 3 true) "+" "Add" ⟨some (.func 3 1), true⟩
      (.func 3 1) 3 1 (by decide) (by decide) (by decide) rfl rfl rfl).2 (by decide)⟩

/-- C3. When the candidate sequence of an operator contains a name that is
not in the registry and is either not in the catalogue or in it with a kind
that is not callable, `Check` fails; when every pair that `Check` visits
before this one is acceptable, so that this pair is the first one it stops
at, the failure is the does-not-exist error of that name and that operator,
whose message contains both. -/
theorem Check_unresolvable_candidate (c : Config) (pre post : OperatorsTable)
    (operator : String) (before after : List String) (fn : String)
    (hops : c.Operators = pre ++ (operator, before ++ fn :: after) :: post)
    (hreg : c.Functions.index fn = none)
    (hcat : c.Types.index fn = none ∨
      ∃ tag t, c.Types.index fn = some tag ∧ tag.Typ = some t ∧ t.Kind ≠ Kind.Func) :
    (Check c).Fails ∧
    ((∀ p ∈ pre, ∀ g ∈ p.2, Acceptable c g) → (∀ g ∈ before, Acceptable c g) →
      (Check c).result = .error (.doesNotExist fn operator)) ∧
    ∃ msg, (Err.doesNotExist fn operator).text = some msg ∧ Contains msg fn ∧
      Contains msg operator := by
  have hbody := Check.body_unresolvable c operator fn hreg hcat
  refine ⟨?_, ?_, contains_doesNotExist fn operator⟩
  · apply Check_fails_of_bad_pair c pre post operator before after fn hops
    rw [← Check.body_ok_iff c operator fn, hbody]
    simp
  · intro hpre hbefore
    exact Check_first_error c pre post operator before after fn _ hops hpre hbefore hbody

/-- C3, at concrete inputs: "Gone" after the acceptable "Sub" under "-", first
in no table at all, then in the catalogue as an int. -/
theorem Check_unresolvable_candidate_witness :
    (Check (goneConfig [])).result = .error (.doesNotExist "Gone" "-") ∧
    (Check (goneConfig [("Gone", { Typ := some (.basic .int), Method := false })])).result
      = .error (.doesNotExist "Gone" "-") :=
  ⟨(Check_unresolvable_candidate (goneConfig []) [] [] "-" ["Sub"] [] "Gone" (by decide)
      (by decide) (Or.inl (by decide))).2.1 (by decide) (by decide),
   (Check_unresolvable_candidate
      (goneConfig [("Gone", { Typ := some (.basic .int), Method := false })]) [] [] "-" ["Sub"] []
      "Gone" (by decide) (by decide)
      (Or.inr ⟨{ Typ := some (.basic .int), Method := false }, .basic .int, by decide, rfl,
        by decide⟩)).2.1 (by decide) (by decide)⟩

/-- C4, evaluated on the code.  With "Contains" only in the registry, with the
overloads (2,1) and (3,1), `Check` fails on the second overload with the
signature error naming "Contains" and "in".  With the same registry and the
catalogue holding "Contains" as an int, `Check` calls `checkType` on the int
and panics inside `reflect` with "reflect: NumIn of non-func type int": not a
configuration error, and no message of this package. -/
theorem Check_bad_overload_beside_noncallable_entry :
    (Check (containsConfig [.func 2 1, .func 3 1] [])).result
      = .error (.badSignature "Contains" "in") ∧
    (Check (containsConfig [.func 2 1, .func 3 1]
        [("Contains", { Typ := some (.basic .int), Method := false })])).result
      = .error (.reflectPanic "NumIn" (.basic .int)) ∧
    (Err.reflectPanic "NumIn" (.basic .int)).isConfig = false ∧
    (Err.reflectPanic "NumIn" (.basic .int)).text = none := by
  decide

/-- C5, amended.  When a candidate of an operator is in the registry with an
empty overload list, `Check` fails, whatever the operator symbol; when every
pair `Check` visits before this one is acceptable and the catalogue holds
nothing under the name, or an entry of the catalogue shape, the failure is the
missing-types error "function <name> for <operator> operator misses types". -/
theorem Check_empty_overloads (c : Config) (pre post : OperatorsTable) (operator : String)
    (before after : List String) (fn : String) (f : Function)
    (hops : c.Operators = pre ++ (operator, before ++ fn :: after) :: post)
    (hreg : c.Functions.index fn = some f) (hempty : f.Types = []) :
    (Check c).Fails ∧
    ((∀ p ∈ pre, ∀ g ∈ p.2, Acceptable c g) → (∀ g ∈ before, Acceptable c g) →
      (∀ tag, c.Types.index fn = some tag → tag.ShapeOk) →
      (Check c).result = .error (.missesTypes fn operator)) ∧
    (Err.missesTypes fn operator).text
      = some ("function " ++ fn ++ " for " ++ operator ++ " operator misses types") := by
  refine ⟨?_, ?_, rfl⟩
  · apply Check_fails_of_bad_pair c pre post operator before after fn hops
    intro h
    exact (h.2.2 f hreg).1 hempty
  · intro hpre hbefore hcat
    apply Check_first_error c pre post operator before after fn _ hops hpre hbefore
    rw [Check.body_registry c operator fn f hreg]
    have hf : checkFunc f fn operator = .error (.missesTypes fn operator) := by
      simp [checkFunc, hempty]
    cases ht : c.Types.index fn with
    | none => simpa using hf
    | some tag =>
      have := (checkType_ok_iff tag fn operator).2 (hcat tag ht)
      simp [this, hf]

/-- C5, amended, at concrete inputs: "Size" without overloads under "<" with
an empty catalogue, and under "in" with "Size" also a catalogue function of
two inputs and one output. -/
theorem Check_empty_overloads_witness :
    (Check (sizeConfig "<" [])).result = .error (.missesTypes "Size" "<") ∧
    (Check (sizeConfig "in" [("Size", { Typ := some (.func 2 1), Method := false })])).result
      = .error (.missesTypes "Size" "in") :=
  ⟨(Check_empty_overloads (sizeConfig "<" []) [] [] "<" [] [] "Size"
      { Name := "Size", Types := [] } (by decide) (by decide) rfl).2.1
      (by decide) (by decide) (by decide),
   (Check_empty_overloads
      (sizeConfig "in" [("Size", { Typ := some (.func 2 1), Method := false })]) [] [] "in" [] []
      "Size" { Name := "Size", Types := [] } (by decide) (by decide) rfl).2.1
      (by decide) (by decide) (by simp [sizeConfig, GoMap.index]; decide)⟩

/-- C5 as stated fails: "Size" is the one candidate of "<" and is in the
registry with an empty overload list, and it is also a catalogue function of
one input; `Check` runs `checkType` first and fails with the signature error,
not with the missing-types error. -/
theorem Check_empty_overloads_counterexample :
    (sizeConfig "<" [("Size", { Typ := some (.func 1 1), Method := false })]).Operators
      = [("<", ["Size"])] ∧
    (sizeConfig "<" [("Size", { Typ := some (.func 1 1), Method := false })]).Functions.index "Size"
      = some { Name := "Size", Types := [] } ∧
    (Check (sizeConfig "<" [("Size", { Typ := some (.func 1 1), Method := false })])).result
      = .error (.badSignature "Size" "<") ∧
    (Check (sizeConfig "<" [("Size", { Typ := some (.func 1 1), Method := false })])).result
      ≠ .error (.missesTypes "Size" "<") := by
  decide

/-- C6, amended.  When the operator table holds the single pair (operator,
name) and name is in the registry, `Check` does not raise the does-not-exist
error, and it succeeds if and only if the registry descriptor has at least
one overload and only overloads of 2 inputs and 1 output, and the catalogue
entry under the same name, if there is one, has 1 output and 2 inputs (3 for
a bound method). -/
theorem Check_single_registry_candidate (c : Config) (operator name : String) (f : Function)
    (hops : c.Operators = [(operator, [name])])
    (hreg : c.Functions.index name = some f) :
    (Check c).result ≠ .error (.doesNotExist name operator) ∧
    ((Check c).result = .ok () ↔
      f.ShapeOk ∧ ∀ tag, c.Types.index name = some tag → tag.ShapeOk) := by
  rw [Check_single c operator name hops]
  constructor
  · intro h
    exact Check.body_registry_error c operator name f _ hreg h rfl
  · rw [Check.body_ok_iff]
    unfold Acceptable
    simp only [hreg, Option.isSome_some, true_or, true_and, Option.some.injEq, forall_eq']
    exact And.comm

/-- C6, amended, at concrete inputs: "Add" in the registry with the overload
(2,1) passes when the catalogue is empty and when the catalogue holds "Add" as
a bound method of three inputs and one output. -/
theorem Check_single_registry_candidate_witness :
    (Check (addRegistryConfig [])).result = .ok () ∧
    (Check (addRegistryConfig [("Add", { Typ := some (.func 3 1), Method := true })])).result
      = .ok () :=
  ⟨(Check_single_registry_candidate (addRegistryConfig []) "+" "Add"
      { Name := "Add", Types := [.func 2 1] } (by decide) (by decide)).2.2
      ⟨by decide, by decide⟩,
   (Check_single_registry_candidate
      (addRegistryConfig [("Add", { Typ := some (.func 3 1), Method := true })]) "+" "Add"
      { Name := "Add", Types := [.func 2 1] } (by decide) (by decide)).2.2
      ⟨by decide, by simp [addRegistryConfig, GoMap.index]; decide⟩⟩

/-- C6 as stated fails: "Add" is the one candidate of "+", its registry
descriptor has the one overload (2,1), and the catalogue holds "Add" as a
callable entry of one input; `Check` fails with the signature error. -/
theorem Check_registry_candidate_counterexample :
    (addRegistryConfig [("Add", { Typ := some (.func 1 1), Method := false })]).Operators
      = [("+", ["Add"])] ∧
    (∃ f, (addRegistryConfig [("Add", { Typ := some (.func 1 1), Method := false })]).Functions.index
        "Add" = some f ∧ f.ShapeOk) ∧
    (Tag.Callable { Typ := some (.func 1 1), Method := false }) ∧
    (Check (addRegistryConfig [("Add", { Typ := some (.func 1 1), Method := false })])).result
      = .error (.badSignature "Add" "+") :=
  ⟨by decide, ⟨{ Name := "Add", Types := [.func 2 1] }, by decide, by decide⟩, by decide,
    by decide⟩

/-- C7. `Operator(op, fns)` returns, and leaves `op` mapped to its previous
sequence (empty if `op` was absent) followed by `fns` in the given order,
duplicates kept, and every other operator as it was; so `Operator(op, fns)`
followed by `Operator(op, more)` leaves the configuration that
`Operator(op, fns ++ more)` leaves. -/
theorem Operator_appends (c : Config) (op : String) (fns : List String) :
    (Operator op fns c).result = .ok () ∧
    (Operator op fns c).conf.Operators.index op
      = some ((c.Operators.index op).getD [] ++ fns) ∧
    (∀ other, other ≠ op →
      (Operator op fns c).conf.Operators.index other = c.Operators.index other) ∧
    (∀ more, (Operator op more (Operator op fns c).conf).conf
      = (Operator op (fns ++ more) c).conf) := by
  refine ⟨rfl, ?_, ?_, ?_⟩
  · simp [Operator, GoMap.index_store_same]
  · intro other hne
    simp [Operator, GoMap.index_store_other _ _ _ _ hne]
  · intro more
    simp [Operator, GoMap.index_store_same, GoMap.store_store, List.append_assoc]

/-- C7, at a concrete input: after "-" was given "Sub" and "Gone", registering
"Gone" and "Neg" under "-" keeps the duplicate, in order, and "+" stays absent. -/
theorem Operator_appends_witness :
    (Operator "-" ["Gone", "Neg"] (goneConfig [])).conf.Operators.index "-"
      = some ["Sub", "Gone", "Gone", "Neg"] ∧
    (Operator "-" ["Gone", "Neg"] (goneConfig [])).conf.Operators.index "+" = none :=
  ⟨(Operator_appends (goneConfig []) "-" ["Gone", "Neg"]).2.1,
   (Operator_appends (goneConfig []) "-" ["Gone", "Neg"]).2.2.1 "+" (by decide)⟩

/-- C8, amended.  When `CreateTypesTable` returns a catalogue for `env`,
`WithEnv(env)` returns, with `Env` set to `env` and `Types` to that catalogue.
If the type of `env` is `map[string]interface{}` itself, `MapEnv` is true and
`DefaultType` unset; if `env` is of any other type of kind map, a defined type
over `map[string]interface{}` included, `MapEnv` is false and `DefaultType` is
the element type of the map; if `env` is not of kind map (nil included),
`MapEnv` is false and `DefaultType` unset. -/
theorem WithEnv_binds (CreateTypesTable : Interface → Except Err TypesTable)
    (env : Interface) (c : Config) (types : TypesTable)
    (hreturns : CreateTypesTable env = .ok types) :
    (WithEnv CreateTypesTable env c).result = .ok () ∧
    (WithEnv CreateTypesTable env c).conf.Env = env ∧
    (WithEnv CreateTypesTable env c).conf.Types = types ∧
    (TypeOf env = some RType.mapStringInterface →
      (WithEnv CreateTypesTable env c).conf.MapEnv = true ∧
      (WithEnv CreateTypesTable env c).conf.DefaultType = none) ∧
    (∀ t, TypeOf env = some t → t ≠ RType.mapStringInterface → t.Kind = Kind.Map →
      (WithEnv CreateTypesTable env c).conf.MapEnv = false ∧
      ∃ elem, t.Elem = .ok elem ∧
        (WithEnv CreateTypesTable env c).conf.DefaultType = some elem) ∧
    (env.Kind ≠ Kind.Map →
      (WithEnv CreateTypesTable env c).conf.MapEnv = false ∧
      (WithEnv CreateTypesTable env c).conf.DefaultType = none) := by
  cases env with
  | none =>
    refine ⟨?_, ?_, ?_, ?_, ?_, ?_⟩ <;> simp [WithEnv, TypeOf, Interface.Kind, hreturns]
  | some v =>
    have hT : TypeOf (some v) = some v.typ := rfl
    have hK : Interface.Kind (some v) = v.typ.Kind := rfl
    by_cases h1 : v.typ = RType.mapStringInterface
    · have hk : RType.mapStringInterface.Kind = Kind.Map := rfl
      refine ⟨?_, ?_, ?_, ?_, ?_, ?_⟩ <;> simp [WithEnv, hT, hK, h1, hk, hreturns]
    · by_cases h2 : v.typ.Kind = Kind.Map
      · obtain ⟨elem, he⟩ := RType.elem_of_map v.typ h2
        refine ⟨?_, ?_, ?_, ?_, ?_, ?_⟩ <;> simp [WithEnv, hT, hK, h1, h2, he, hreturns]
      · refine ⟨?_, ?_, ?_, ?_, ?_, ?_⟩ <;> simp [WithEnv, hT, hK, h1, h2, hreturns]

/-- C8, amended, at concrete inputs: a `map[string]interface{}`, a
`map[string]int`, a struct and nil, each with a catalogue returned. -/
theorem WithEnv_binds_witness :
    ((WithEnv emptyCatalogue dynamicMapEnv (CreateNew [])).conf.MapEnv = true ∧
      (WithEnv emptyCatalogue dynamicMapEnv (CreateNew [])).conf.DefaultType = none) ∧
    ((WithEnv emptyCatalogue intMapEnv (CreateNew [])).conf.MapEnv = false ∧
      ∃ elem, (RType.mapOf (.basic .string) (.basic .int)).Elem = .ok elem ∧
        (WithEnv emptyCatalogue intMapEnv (CreateNew [])).conf.DefaultType = some elem) ∧
    ((WithEnv emptyCatalogue structEnv (CreateNew [])).conf.MapEnv = false ∧
      (WithEnv emptyCatalogue structEnv (CreateNew [])).conf.DefaultType = none) ∧
    ((WithEnv emptyCatalogue none (CreateNew [])).conf.MapEnv = false ∧
      (WithEnv emptyCatalogue none (CreateNew [])).conf.DefaultType = none) :=
  ⟨(WithEnv_binds emptyCatalogue dynamicMapEnv (CreateNew []) [] rfl).2.2.2.1 (by decide),
   (WithEnv_binds emptyCatalogue intMapEnv (CreateNew []) [] rfl).2.2.2.2.1 _ rfl (by decide)
      (by decide),
   (WithEnv_binds emptyCatalogue structEnv (CreateNew []) [] rfl).2.2.2.2.2 (by decide),
   (WithEnv_binds emptyCatalogue none (CreateNew []) [] rfl).2.2.2.2.2 (by decide)⟩

/-- C8 as stated fails, at two inputs.  A value of the defined type
`type Env map[string]interface{}` is a string-keyed map with dynamically-typed
values, and after `WithEnv` on it `MapEnv` is false and `DefaultType` is
`interface{}`: the type assertion `env.(map[string]interface{})` holds for
that one type only.  And on a `map[string]interface{}` for which
`CreateTypesTable` panics, `WithEnv` panics after it has written `Env`:
`MapEnv` stays false and `Types` is no catalogue of the environment. -/
theorem WithEnv_named_dynamic_map :
    (IsDynamicStringMap namedMapEnv ∧
      (WithEnv emptyCatalogue namedMapEnv (CreateNew [])).conf.MapEnv = false ∧
      (WithEnv emptyCatalogue namedMapEnv (CreateNew [])).conf.DefaultType
        = some RType.emptyInterface) ∧
    (IsDynamicStringMap refusedMapEnv ∧
      (WithEnv guardedCatalogue refusedMapEnv (CreateNew [])).result
        = .error (.foreign "cannot create the types table") ∧
      (WithEnv guardedCatalogue refusedMapEnv (CreateNew [])).conf.Env = refusedMapEnv ∧
      (WithEnv guardedCatalogue refusedMapEnv (CreateNew [])).conf.MapEnv = false) := by
  decide

/-- C9, amended.  `ConstExpr(f)` fails with the missing-environment error when no
environment is bound; with an environment bound and the lookup returning a
value that is not a function, it fails with the not-callable error of `f`;
with the lookup returning a function, it succeeds and the constant-function
map holds that function under `f`.  A lookup that itself panics makes
`ConstExpr` panic with the same value. -/
theorem ConstExpr_cases (Fetch : Interface → String → Except Err Interface) (c : Config)
    (f : String) :
    (c.Env = none → (ConstExpr Fetch f c).result = .error .noEnvironment) ∧
    (∀ v, c.Env ≠ none → Fetch c.Env f = .ok v → v.Kind ≠ Kind.Func →
      (ConstExpr Fetch f c).result = .error (.constExprNotFunc f)) ∧
    (∀ v, c.Env ≠ none → Fetch c.Env f = .ok v → v.Kind = Kind.Func →
      (ConstExpr Fetch f c).result = .ok () ∧
      (ConstExpr Fetch f c).conf.ConstFns.index f = some v) ∧
    (∀ e, c.Env ≠ none → Fetch c.Env f = .error e → (ConstExpr Fetch f c).result = .error e) := by
  refine ⟨?_, ?_, ?_, ?_⟩
  · intro h; simp [ConstExpr, h]
  · intro v henv hv hk; simp [ConstExpr, henv, hv, hk]
  · intro v henv hv hk; simp [ConstExpr, henv, hv, hk, GoMap.index_store_same]
  · intro e henv he; simp [ConstExpr, henv, he]

/-- C9, amended, at concrete inputs: no environment; an environment where "n" is an
int; an environment where "f" is a function. -/
theorem ConstExpr_cases_witness :
    (ConstExpr sampleFetch "f" (CreateNew [])).result = .error .noEnvironment ∧
    (ConstExpr sampleFetch "n" (WithEnv emptyCatalogue structEnv (CreateNew [])).conf).result
      = .error (.constExprNotFunc "n") ∧
    ((ConstExpr sampleFetch "f" (WithEnv emptyCatalogue structEnv (CreateNew [])).conf).result
      = .ok () ∧
     (ConstExpr sampleFetch "f"
        (WithEnv emptyCatalogue structEnv (CreateNew [])).conf).conf.ConstFns.index "f"
      = some (some { typ := .func 1 1, data := 4 })) :=
  ⟨(ConstExpr_cases sampleFetch (CreateNew []) "f").1 (by decide),
   (ConstExpr_cases sampleFetch (WithEnv emptyCatalogue structEnv (CreateNew [])).conf "n").2.1
      (some { typ := .basic .int, data := 5 }) (by decide) (by decide) (by decide),
   (ConstExpr_cases sampleFetch (WithEnv emptyCatalogue structEnv (CreateNew [])).conf "f").2.2.1
      (some { typ := .func 1 1, data := 4 }) (by decide) (by decide) (by decide)⟩

/-- C9 as stated fails: an environment is bound, the lookup of "zzz" returns
no value at all, so it returns no value that is not a function, and
`ConstExpr("zzz")` does not succeed: it panics with the panic of the lookup,
which is neither the missing-environment nor the not-callable error. -/
theorem ConstExpr_lookup_panics :
    (WithEnv emptyCatalogue structEnv (CreateNew [])).conf.Env ≠ none ∧
    (∀ v, sampleFetch (WithEnv emptyCatalogue structEnv (CreateNew [])).conf.Env "zzz"
      ≠ .ok v) ∧
    (ConstExpr sampleFetch "zzz" (WithEnv emptyCatalogue structEnv (CreateNew [])).conf).result
      = .error (.foreign "cannot fetch") ∧
    (ConstExpr sampleFetch "zzz" (WithEnv emptyCatalogue structEnv (CreateNew [])).conf).result
      ≠ .ok () ∧
    (ConstExpr sampleFetch "zzz" (WithEnv emptyCatalogue structEnv (CreateNew [])).conf).result
      ≠ .error .noEnvironment ∧
    (ConstExpr sampleFetch "zzz" (WithEnv emptyCatalogue structEnv (CreateNew [])).conf).result
      ≠ .error (.constExprNotFunc "zzz") :=
  ⟨by decide, fun v h => by simp [sampleFetch] at h, by decide, by decide, by decide,
    by decide⟩

/-- C10. `Check` leaves the configuration as it was, every field, whether it
returns or panics; a second run succeeds if and only if the first did, also
when the second `range` visits the operator table in another order. -/
theorem Check_has_no_effect (c : Config) :
    (Check c).conf = c ∧
    ((Check (Check c).conf).result = .ok () ↔ (Check c).result = .ok ()) ∧
    (∀ ops : OperatorsTable, ops.Perm c.Operators →
      ((Check { (Check c).conf with Operators := ops }).result = .ok () ↔
        (Check c).result = .ok ())) := by
  have hconf : (Check c).conf = c := Check.outer_conf c.Operators c
  refine ⟨hconf, by rw [hconf], ?_⟩
  intro ops hperm
  rw [hconf, Check_ok_iff, Check_ok_iff]
  simp only [Acceptable_congr { c with Operators := ops } c _ rfl rfl]
  constructor
  · intro h p hp; exact h p (hperm.mem_iff.2 hp)
  · intro h p hp; exact h p (hperm.mem_iff.1 hp)

/-- C10, at concrete inputs: a configuration on which `Check` panics and one
on which it returns are both left as they were. -/
theorem Check_has_no_effect_witness :
    (Check (goneConfig [])).conf = goneConfig [] ∧
    (Check (addConfig 2 false)).conf = addConfig 2 false :=
  ⟨(Check_has_no_effect (goneConfig [])).1, (Check_has_no_effect (addConfig 2 false)).1⟩

/-- C11. Registration does not depend on whether the environment is bound
before or after: `Operator(op, fns)` followed by `WithEnv(env)` leaves the
configuration that `WithEnv(env)` followed by `Operator(op, fns)` leaves,
`WithEnv` returns or panics alike in both orders, `Operator` returns, and
`Check` has the same outcome on the two; so an operator declared before its
function is in the catalogue validates as one declared afterwards. -/
theorem Operator_WithEnv_commute (T : Interface → Except Err TypesTable) (env : Interface)
    (op : String) (fns : List String) (c : Config) :
    (WithEnv T env (Operator op fns c).conf).result = (WithEnv T env c).result ∧
    (Operator op fns (WithEnv T env c).conf).result = .ok () ∧
    (WithEnv T env (Operator op fns c).conf).conf
      = (Operator op fns (WithEnv T env c).conf).conf ∧
    Check (WithEnv T env (Operator op fns c).conf).conf
      = Check (Operator op fns (WithEnv T env c).conf).conf := by
  have h : (WithEnv T env (Operator op fns c).conf).conf
      = (Operator op fns (WithEnv T env c).conf).conf := by
    cases hT : T env with
    | error e => simp [WithEnv_eq_error T env _ e hT, Operator]
    | ok types => simp [WithEnv_eq_ok T env _ types hT, Operator]
  exact ⟨by rw [WithEnv_result, WithEnv_result], rfl, h, by rw [h]⟩

/-- C11, at a concrete input: "+" is given "Add" before, and after, the
environment whose catalogue holds "Add" is bound; `Check` returns both times. -/
theorem Operator_WithEnv_commute_witness :
    (Check (WithEnv addCatalogue structEnv
      (Operator "+" ["Add"] (CreateNew [])).conf).conf).result = .ok () ∧
    (Check (Operator "+" ["Add"]
      (WithEnv addCatalogue structEnv (CreateNew [])).conf).conf).result = .ok () :=
  ⟨by decide,
   (congrArg Outcome.result
      (Operator_WithEnv_commute addCatalogue structEnv "+" ["Add"] (CreateNew [])).2.2.2).symm.trans
      (by decide)⟩

/-- C12, amended.  A fresh configuration has `Strict` false and no
environment; a call of `WithEnv` that returns sets `Strict` to true for every
argument, nil included; and after any sequence of calls from `CreateNew` in
which no call of `WithEnv` had the nil argument, `Strict` is true only if an
environment is bound. -/
theorem Strict_in_reachable (w : Collaborators) (calls : List Call) :
    ((CreateNew w.builtinFunctions).Strict = false ∧
      (CreateNew w.builtinFunctions).Env = none) ∧
    (∀ env c, (WithEnv w.CreateTypesTable env c).result = .ok () →
      (WithEnv w.CreateTypesTable env c).conf.Strict = true) ∧
    ((∀ env, Call.withEnv env ∈ calls → env ≠ none) →
      (runCalls w calls (CreateNew w.builtinFunctions)).Strict = true →
      (runCalls w calls (CreateNew w.builtinFunctions)).Env ≠ none) := by
  have hfresh : (CreateNew w.builtinFunctions).Strict = false ∧
      (CreateNew w.builtinFunctions).Env = none := by
    rw [CreateNew_eq]; exact ⟨rfl, rfl⟩
  refine ⟨hfresh, ?_, ?_⟩
  · intro env c hok
    cases hT : w.CreateTypesTable env with
    | error e =>
      rw [WithEnv_eq_error w.CreateTypesTable env c e hT] at hok
      cases hok
    | ok types => rw [WithEnv_eq_ok w.CreateTypesTable env c types hT]
  · intro hne
    exact runCalls_env_of_strict w calls _ (by simp [hfresh.1]) hne

/-- C12, amended, at a concrete input: after `Operator`, `WithEnv` on a
struct, `ConstExpr` and `Check`, strict checking is on and the environment is
bound; and `WithEnv(nil)`, which returns, sets `Strict`. -/
theorem Strict_in_reachable_witness :
    (runCalls sampleWorld
        [.operator "+" ["Add"], .withEnv structEnv, .constExpr "n", .check]
        (CreateNew sampleWorld.builtinFunctions)).Env ≠ none ∧
    (WithEnv sampleWorld.CreateTypesTable none
      (CreateNew sampleWorld.builtinFunctions)).conf.Strict = true :=
  ⟨(Strict_in_reachable sampleWorld
      [.operator "+" ["Add"], .withEnv structEnv, .constExpr "n", .check]).2.2
      (by intro env h; simp at h; subst h; decide) (by decide),
   (Strict_in_reachable sampleWorld []).2.1 none (CreateNew sampleWorld.builtinFunctions)
      (by decide)⟩

/-- C12 as stated fails, at two inputs.  `WithEnv(nil)` on the fresh
configuration reaches a configuration with `Strict` true and `Env` nil.  And
`WithEnv` on an environment for which `CreateTypesTable` panics does not set
`Strict`: it leaves the environment bound and `Strict` false. -/
theorem Strict_without_environment :
    (Reachable sampleWorld
      (WithEnv sampleWorld.CreateTypesTable none (CreateNew sampleWorld.builtinFunctions)).conf ∧
     (WithEnv sampleWorld.CreateTypesTable none
      (CreateNew sampleWorld.builtinFunctions)).conf.Strict = true ∧
     (WithEnv sampleWorld.CreateTypesTable none
      (CreateNew sampleWorld.builtinFunctions)).conf.Env = none) ∧
    ((WithEnv guardedWorld.CreateTypesTable refusedMapEnv
      (CreateNew guardedWorld.builtinFunctions)).conf.Env = refusedMapEnv ∧
     (WithEnv guardedWorld.CreateTypesTable refusedMapEnv
      (CreateNew guardedWorld.builtinFunctions)).conf.Strict = false) :=
  ⟨⟨⟨[.withEnv none], rfl⟩, by decide, by decide⟩, by decide, by decide⟩

/-- C13. Two configurations whose catalogues and registries give the same
lookups and whose operator tables hold the same set of (operator, candidate)
pairs, in whatever order of operators and of candidates and with whatever
repetitions, have the same verdict: `Check` succeeds on one if and only if it succeeds on
the other. -/
theorem Check_verdict_of_same_pairs (c d : Config)
    (hT : ∀ name, d.Types.index name = c.Types.index name)
    (hF : ∀ name, d.Functions.index name = c.Functions.index name)
    (hcd : pairs c.Operators ⊆ pairs d.Operators)
    (hdc : pairs d.Operators ⊆ pairs c.Operators) :
    (Check c).result = .ok () ↔ (Check d).result = .ok () := by
  rw [Check_ok_iff, Check_ok_iff]
  simp only [Acceptable_of_same_lookups c d hT hF]
  constructor
  · intro h p hp fn hfn
    obtain ⟨fns, hmem, hin⟩ := (mem_pairs _ _ _).1 (hdc ((mem_pairs _ _ _).2 ⟨p.2, hp, hfn⟩))
    exact h (p.1, fns) hmem fn hin
  · intro h p hp fn hfn
    obtain ⟨fns, hmem, hin⟩ := (mem_pairs _ _ _).1 (hcd ((mem_pairs _ _ _).2 ⟨p.2, hp, hfn⟩))
    exact h (p.1, fns) hmem fn hin

/-- C13, at concrete inputs: the same pairs with the operators and the
candidates in another order and with repeated candidates, once all
acceptable and once with the unknown "Gone" among them. -/
theorem Check_verdict_of_same_pairs_witness :
    (((Check (pairsConfig [("-", ["Sub"]), ("+", ["Add", "Sub"])])).result = .ok () ↔
      (Check (pairsConfig [("+", ["Sub", "Add", "Add"]), ("-", ["Sub", "Sub"])])).result
        = .ok ()) ∧
     (Check (pairsConfig [("-", ["Sub"]), ("+", ["Add", "Sub"])])).result = .ok ()) ∧
    (((Check (pairsConfig [("-", ["Gone"]), ("+", ["Add", "Sub"])])).result = .ok () ↔
      (Check (pairsConfig [("+", ["Sub", "Add", "Add"]), ("-", ["Gone", "Gone"])])).result
        = .ok ()) ∧
     (Check (pairsConfig [("-", ["Gone"]), ("+", ["Add", "Sub"])])).result ≠ .ok ()) :=
  ⟨⟨Check_verdict_of_same_pairs (pairsConfig [("-", ["Sub"]), ("+", ["Add", "Sub"])])
      (pairsConfig [("+", ["Sub", "Add", "Add"]), ("-", ["Sub", "Sub"])])
      (fun _ => rfl) (fun _ => rfl) (by decide) (by decide), by decide⟩,
   ⟨Check_verdict_of_same_pairs (pairsConfig [("-", ["Gone"]), ("+", ["Add", "Sub"])])
      (pairsConfig [("+", ["Sub", "Add", "Add"]), ("-", ["Gone", "Gone"])])
      (fun _ => rfl) (fun _ => rfl) (by decide) (by decide), by decide⟩⟩

/-- C14, evaluated on the code.  "Add" is the one candidate of "+"; the
registry holds it with the one overload (2,1), and the catalogue holds "Add"
as a string.  `Check` fails, and the failure is the panic of `reflect` on
`NumIn` of a non-func type: not a configuration error, and without a message
that carries "Add" or "+". -/
theorem Check_panics_inside_reflect :
    (Check (addRegistryConfig
        [("Add", { Typ := some (.basic .string), Method := false })])).result
      = .error (.reflectPanic "NumIn" (.basic .string)) ∧
    (Err.reflectPanic "NumIn" (.basic .string)).isConfig = false ∧
    (Err.reflectPanic "NumIn" (.basic .string)).text = none := by
  decide

/-- C15. `CreateNew` returns the default configuration: when the names of
the built-in functions are distinct, the registry maps the name of every
built-in function to that function's descriptor; every key of the registry is
the name of the built-in function it maps to; the operator table and the
constant-function map are empty; `Optimize` is true; `Strict`, `MapEnv` and
`Pipes` are false; no environment, catalogue or default type is set; and
`Check` succeeds on it. -/
theorem CreateNew_defaults (builtinFunctions : List Function) :
    ((builtinFunctions.map (·.Name)).Nodup →
      ∀ f ∈ builtinFunctions, (CreateNew builtinFunctions).Functions.index f.Name = some f) ∧
    (∀ name f, (CreateNew builtinFunctions).Functions.index name = some f →
      f ∈ builtinFunctions ∧ f.Name = name) ∧
    (CreateNew builtinFunctions).Operators = [] ∧
    (CreateNew builtinFunctions).ConstFns = [] ∧
    (CreateNew builtinFunctions).Optimize = true ∧
    (CreateNew builtinFunctions).Strict = false ∧
    (CreateNew builtinFunctions).MapEnv = false ∧
    (CreateNew builtinFunctions).Pipes = false ∧
    (CreateNew builtinFunctions).Env = none ∧
    (CreateNew builtinFunctions).Types = [] ∧
    (CreateNew builtinFunctions).DefaultType = none ∧
    (Check (CreateNew builtinFunctions)).result = .ok () := by
  have hops : (CreateNew builtinFunctions).Operators = [] := by rw [CreateNew_eq]
  refine ⟨?_, ?_, hops, ?_, ?_, ?_, ?_, ?_, ?_, ?_, ?_, ?_⟩
  · intro hnodup f hf
    rw [CreateNew_eq]
    exact CreateNew.store_index_of_nodup builtinFunctions [] hnodup f hf
  · intro name f h
    rw [CreateNew_eq] at h
    rcases CreateNew.store_index_some builtinFunctions [] name f h with h' | h'
    · exact h'
    · simp [GoMap.index] at h'
  all_goals first | (rw [CreateNew_eq]; done) | skip
  rw [Check_ok_iff, hops]
  simp

/-- C15, at a concrete input: the registry made from the built-in functions
"len" and "abs". -/
theorem CreateNew_defaults_witness :
    (CreateNew sampleBuiltins).Functions.index "len"
      = some { Name := "len", Types := [.func 1 1] } ∧
    (CreateNew sampleBuiltins).Functions.index "abs"
      = some { Name := "abs", Types := [.func 1 1] } ∧
    (CreateNew sampleBuiltins).Functions.index "int" = none :=
  ⟨(CreateNew_defaults sampleBuiltins).1 (by decide) { Name := "len", Types := [.func 1 1] }
      (by decide),
   (CreateNew_defaults sampleBuiltins).1 (by decide) { Name := "abs", Types := [.func 1 1] }
      (by decide),
   by decide⟩

/-- C16. `Check` succeeds after `Operator(op, fns)` if and only if it
succeeded before and every name of `fns` is acceptable against the catalogue
and the registry of the configuration; and once `Check` fails, it fails after
every sequence of further calls of `Operator`. -/
theorem Check_after_Operator (c : Config) (op : String) (fns : List String) :
    ((Check (Operator op fns c).conf).result = .ok () ↔
      (Check c).result = .ok () ∧ ∀ fn ∈ fns, Acceptable c fn) ∧
    (∀ regs : List (String × List String), (Check c).Fails →
      (Check (regs.foldl (fun d r => (Operator r.1 r.2 d).conf) c)).Fails) := by
  refine ⟨Check_after_Operator_iff c op fns, ?_⟩
  intro regs
  induction regs generalizing c with
  | nil => exact id
  | cons r regs ih =>
    intro hfail
    simp only [List.foldl_cons]
    apply ih
    rw [Outcome.fails_iff] at hfail ⊢
    intro hok
    exact hfail ((Check_after_Operator_iff c r.1 r.2).1 hok).1

/-- C16, at concrete inputs: on the configuration where "+" has the
acceptable "Add", registering "Add" again keeps `Check` succeeding and
registering the unknown "Gone" makes it fail; and the failing configuration
with "Gone" still fails after two more registrations. -/
theorem Check_after_Operator_witness :
    (Check (Operator "*" ["Add", "Add"] (addConfig 2 false)).conf).result = .ok () ∧
    (Check (Operator "*" ["Add", "Gone"] (addConfig 2 false)).conf).result ≠ .ok () ∧
    (Check (Operator "+" [] (Operator "-" ["Sub"] (goneConfig [])).conf).conf).Fails :=
  ⟨(Check_after_Operator (addConfig 2 false) "*" ["Add", "Add"]).1.2
      ⟨by decide, by decide⟩,
   fun h => absurd
      (((Check_after_Operator (addConfig 2 false) "*" ["Add", "Gone"]).1.1 h).2 "Gone"
        (by decide))
      (by decide),
   (Check_after_Operator (goneConfig []) "-" []).2 [("-", ["Sub"]), ("+", [])]
      ⟨.doesNotExist "Gone" "-", by decide⟩⟩

/-- C17, amended.  After any sequence of calls from `CreateNew`, `MapEnv` is
true only if `DefaultType` is unset; after a call of `WithEnv(env)` that
returns and that no other call of `WithEnv` follows, `Env`, `Types`, `MapEnv`,
`DefaultType` and `Strict` are what `WithEnv(env)` sets them to; and when
`CreateTypesTable` returns a catalogue for `e2`, `WithEnv(e2)` after
`WithEnv(e1)` leaves the configuration that `WithEnv(e2)` alone leaves. -/
theorem MapEnv_excludes_DefaultType (w : Collaborators) (calls : List Call) :
    ((runCalls w calls (CreateNew w.builtinFunctions)).MapEnv = true →
      (runCalls w calls (CreateNew w.builtinFunctions)).DefaultType = none) ∧
    (∀ (pre post : List Call) (env : Interface) (types : TypesTable),
      calls = pre ++ Call.withEnv env :: post →
      (∀ e, Call.withEnv e ∉ post) → w.CreateTypesTable env = .ok types →
      (runCalls w calls (CreateNew w.builtinFunctions)).Env = env ∧
      (runCalls w calls (CreateNew w.builtinFunctions)).Types = types ∧
      (runCalls w calls (CreateNew w.builtinFunctions)).MapEnv
        = (WithEnv w.CreateTypesTable env (CreateNew w.builtinFunctions)).conf.MapEnv ∧
      (runCalls w calls (CreateNew w.builtinFunctions)).DefaultType
        = (WithEnv w.CreateTypesTable env (CreateNew w.builtinFunctions)).conf.DefaultType ∧
      (runCalls w calls (CreateNew w.builtinFunctions)).Strict = true) ∧
    (∀ (e1 e2 : Interface) (c : Config) (types : TypesTable),
      w.CreateTypesTable e2 = .ok types →
      (WithEnv w.CreateTypesTable e2 (WithEnv w.CreateTypesTable e1 c).conf).conf
        = (WithEnv w.CreateTypesTable e2 c).conf) := by
  refine ⟨?_, ?_, ?_⟩
  · apply runCalls_invariant w (fun c => c.MapEnv = true → c.DefaultType = none)
    · intro call c hc
      cases call with
      | withEnv env =>
        simp only [Call.run]
        cases hT : w.CreateTypesTable env with
        | error e => rw [WithEnv_eq_error w.CreateTypesTable env c e hT]; exact hc
        | ok types =>
          rw [WithEnv_eq_ok w.CreateTypesTable env c types hT]
          exact mapEnvOf_excludes env
      | operator op fns =>
        obtain ⟨_, _, a3, a4, _⟩ := Call.run_frame w (.operator op fns) c (by simp)
        rw [a3, a4]; exact hc
      | constExpr name =>
        obtain ⟨_, _, a3, a4, _⟩ := Call.run_frame w (.constExpr name) c (by simp)
        rw [a3, a4]; exact hc
      | check =>
        obtain ⟨_, _, a3, a4, _⟩ := Call.run_frame w .check c (by simp)
        rw [a3, a4]; exact hc
    · rw [CreateNew_eq]; simp
  · intro pre post env types hcalls hpost hT
    subst hcalls
    rw [runCalls_append]
    simp only [runCalls]
    obtain ⟨b1, b2, b3, b4, b5⟩ := runCalls_frame w post
      (Call.run w (Call.withEnv env) (runCalls w pre (CreateNew w.builtinFunctions))).conf hpost
    rw [b1, b2, b3, b4, b5]
    simp [Call.run, WithEnv_eq_ok w.CreateTypesTable env _ types hT]
  · intro e1 e2 c types hT
    cases h1 : w.CreateTypesTable e1 with
    | error e =>
      simp [WithEnv_eq_error w.CreateTypesTable e1 c e h1,
        WithEnv_eq_ok w.CreateTypesTable e2 _ types hT]
    | ok types1 =>
      simp [WithEnv_eq_ok w.CreateTypesTable e1 c types1 h1,
        WithEnv_eq_ok w.CreateTypesTable e2 _ types hT]

/-- C17, amended, at a concrete input: a `map[string]interface{}` is bound,
then a `map[string]int`; the flags describe the second. -/
theorem MapEnv_excludes_DefaultType_witness :
    (runCalls sampleWorld
        [.withEnv dynamicMapEnv, .operator "+" ["Add"], .withEnv intMapEnv, .check]
        (CreateNew sampleWorld.builtinFunctions)).Env = intMapEnv ∧
    (runCalls sampleWorld
        [.withEnv dynamicMapEnv, .operator "+" ["Add"], .withEnv intMapEnv, .check]
        (CreateNew sampleWorld.builtinFunctions)).MapEnv = false ∧
    (runCalls sampleWorld
        [.withEnv dynamicMapEnv, .operator "+" ["Add"], .withEnv intMapEnv, .check]
        (CreateNew sampleWorld.builtinFunctions)).DefaultType = some (.basic .int) :=
  ⟨((MapEnv_excludes_DefaultType sampleWorld
      [.withEnv dynamicMapEnv, .operator "+" ["Add"], .withEnv intMapEnv, .check]).2.1
      [.withEnv dynamicMapEnv, .operator "+" ["Add"]] [.check] intMapEnv [] rfl (by simp)
      rfl).1,
   ((MapEnv_excludes_DefaultType sampleWorld
      [.withEnv dynamicMapEnv, .operator "+" ["Add"], .withEnv intMapEnv, .check]).2.1
      [.withEnv dynamicMapEnv, .operator "+" ["Add"]] [.check] intMapEnv [] rfl
      (by simp) rfl).2.2.1.trans (by decide),
   ((MapEnv_excludes_DefaultType sampleWorld
      [.withEnv dynamicMapEnv, .operator "+" ["Add"], .withEnv intMapEnv, .check]).2.1
      [.withEnv dynamicMapEnv, .operator "+" ["Add"]] [.check] intMapEnv [] rfl
      (by simp) rfl).2.2.2.1.trans (by decide)⟩

/-- C17 as stated fails: a `map[string]int` is bound, and then `WithEnv` is
called on a `map[string]interface{}` for which `CreateTypesTable` panics.  The
second call leaves the second environment bound with the flags of the first,
`DefaultType` int, which is not what the second call alone leaves. -/
theorem WithEnv_rebinding_after_panic :
    (runCalls guardedWorld [.withEnv intMapEnv, .withEnv refusedMapEnv]
      (CreateNew guardedWorld.builtinFunctions)).Env = refusedMapEnv ∧
    (runCalls guardedWorld [.withEnv intMapEnv, .withEnv refusedMapEnv]
      (CreateNew guardedWorld.builtinFunctions)).DefaultType = some (.basic .int) ∧
    (runCalls guardedWorld [.withEnv intMapEnv, .withEnv refusedMapEnv]
      (CreateNew guardedWorld.builtinFunctions)).Strict = true ∧
    (runCalls guardedWorld [.withEnv refusedMapEnv]
      (CreateNew guardedWorld.builtinFunctions)).DefaultType = none ∧
    (runCalls guardedWorld [.withEnv refusedMapEnv]
      (CreateNew guardedWorld.builtinFunctions)).Strict = false ∧
    (WithEnv guardedWorld.CreateTypesTable refusedMapEnv
      (WithEnv guardedWorld.CreateTypesTable intMapEnv
        (CreateNew guardedWorld.builtinFunctions)).conf).conf
      ≠ (WithEnv guardedWorld.CreateTypesTable refusedMapEnv
        (CreateNew guardedWorld.builtinFunctions)).conf := by
  decide

/-- C18. When `ConstExpr(name)` fails, the configuration is as it was,
the constant-function map included; when it succeeds, the configuration
differs from the one before only in the constant-function map, which has
gained the entry for `name` and keeps every other entry. -/
theorem ConstExpr_atomic (F : Interface → String → Except Err Interface) (name : String)
    (c : Config) :
    ((ConstExpr F name c).Fails → (ConstExpr F name c).conf = c) ∧
    ((ConstExpr F name c).result = .ok () →
      (∃ fn, (ConstExpr F name c).conf = { c with ConstFns := c.ConstFns.store name fn }) ∧
      (∀ other, other ≠ name →
        (ConstExpr F name c).conf.ConstFns.index other = c.ConstFns.index other)) := by
  rcases ConstExpr_cases_eq F name c with ⟨e, he⟩ | ⟨fn, _, _, _, he⟩
  · rw [he]; simp
  · rw [he]
    refine ⟨fun _ => ?_, fun _ => ⟨⟨fn, rfl⟩, ?_⟩⟩
    · rename_i h; obtain ⟨e, h'⟩ := h; cases h'
    · intro other hne
      exact GoMap.index_store_other _ _ _ _ hne

/-- C18, at concrete inputs: a failing call on a bound environment, where
"n" is an int, and a succeeding call, which leaves the entry of "g". -/
theorem ConstExpr_atomic_witness :
    (ConstExpr sampleFetch "n" (WithEnv addCatalogue structEnv (CreateNew [])).conf).conf
      = (WithEnv addCatalogue structEnv (CreateNew [])).conf ∧
    (ConstExpr sampleFetch "f" (WithEnv addCatalogue structEnv (CreateNew [])).conf).conf.ConstFns.index
      "g" = none :=
  ⟨(ConstExpr_atomic sampleFetch "n" (WithEnv addCatalogue structEnv (CreateNew [])).conf).1
      ⟨.constExprNotFunc "n", by decide⟩,
   (((ConstExpr_atomic sampleFetch "f" (WithEnv addCatalogue structEnv (CreateNew [])).conf).2
      (by decide)).2 "g" (by decide)).trans (by decide)⟩

end Conf
